import Mathlib

/-!
Shallow embedding of the plotex regression-test harness: the check engine
and display-state reconstructor of regtest.py, and the twin reconstructor
in ifomatic.py. Python dicts become association lists, optional JSON
fields become Option, and code that can raise returns Except String.
Python truthiness of the values involved is modelled explicitly.
-/

/-- Python truthiness of an optional integer: None and 0 are falsy. -/
def pyTruthyInt : Option Int → Bool
  | none => false
  | some n => n != 0

/-- Python truthiness of an optional string: None and the empty string are falsy. -/
def pyTruthyStr : Option String → Bool
  | none => false
  | some s => s != ""

/-! ### Check engine (regtest.py, class Check) -/

/-- Core of Check.eval (regtest.py lines 292-298): given the result of the
class-specific subeval on the selected projection, apply the inverse flag.
A falsy result (None) means the check passed; a truthy string is the
failure message. Source:
  res = self.subeval(lines)
  if (not self.inverse): return res
  else:
    if res: return
    return 'inverse test should fail' -/
def Check_eval_core (inverse : Bool) (res : Option String) : Option String :=
  if !inverse then res
  else if pyTruthyStr res then none
  else some "inverse test should fail"

/-- Check.eval (regtest.py lines 277-298): the projection selection
(status/graphics/story, text or raw) is abstracted as the already-selected
`lines` value; `subeval` is the class-specific predicate. -/
def Check_eval {α : Type} (inverse : Bool) (subeval : α → Option String) (lines : α) : Option String :=
  Check_eval_core inverse (subeval lines)

/-- The driver treats a check's eval result as a failure when it is truthy
(regtest.py run(), `res = check.eval(gamestate); if (res): ...`). -/
def check_failed (res : Option String) : Bool := pyTruthyStr res

/-! ### LiteralCountCheck (regtest.py lines 329-358)

Lines are modelled as lists of characters; Python str.find(needle, start)
returns the least index at or past start where the needle occurs (the
index len(line) is a candidate too, where only an empty needle matches). -/

/-- One line of LiteralCountCheck.subeval's inner loop (regtest.py 346-354):
walk the suffixes of the line in order; a suffix that starts with the needle
is one found occurrence (str.find skips non-matching positions; the walk
visits them without counting). After a hit the walk moves one position on,
modelling `start = pos+1`; when the running counter reaches the threshold
the whole scan stops with success (Sum.inr). Otherwise the final counter is
returned (Sum.inl). -/
def literal_count_line (needle : List Char) (count : Nat) : List Char → Nat → Nat ⊕ Unit
  | [], counter =>
    if needle.isPrefixOf ([] : List Char) then
      (if count ≤ counter + 1 then Sum.inr () else Sum.inl (counter + 1))
    else Sum.inl counter
  | a :: t, counter =>
    if needle.isPrefixOf (a :: t) then
      (if count ≤ counter + 1 then Sum.inr () else literal_count_line needle count t (counter + 1))
    else literal_count_line needle count t counter

/-- Outer loop of LiteralCountCheck.subeval (regtest.py 343-358): the counter
carries across lines; on exhausting all lines, report 'not found' when the
counter is zero and 'only found N times' otherwise. -/
def literal_count_lines (needle : List Char) (count : Nat) : List (List Char) → Nat → Option String
  | [], counter =>
    if counter == 0 then some "not found"
    else some ("only found " ++ toString counter ++ " times")
  | ln :: rest, counter =>
    match literal_count_line needle count ln counter with
    | Sum.inl c => literal_count_lines needle count rest c
    | Sum.inr () => none

/-- LiteralCountCheck.subeval (regtest.py 343-358), starting with counter 0. -/
def LiteralCountCheck_subeval (needle : List Char) (count : Nat) (lines : List (List Char)) : Option String :=
  literal_count_lines needle count lines 0

/-- Number of positions at which the needle occurs in one line, counting
overlapping occurrences separately (the claim's counting rule: scan the line
and advance one position past each found start). Every suffix, including the
empty suffix at the end of the line, is a candidate start. -/
def occurrences (needle : List Char) : List Char → Nat
  | [] => if needle.isPrefixOf ([] : List Char) then 1 else 0
  | a :: t => (if needle.isPrefixOf (a :: t) then 1 else 0) + occurrences needle t

/-- Total occurrence count over all lines (the claim's aggregate count). -/
def total_occurrences (needle : List Char) (lines : List (List Char)) : Nat :=
  (lines.map (occurrences needle)).sum

/-! ### Display-state reconstructor (regtest.py, class GameStateRemGlk)

JSON updates are modelled by typed structures holding the fields the
harness reads; Python dicts keyed by window id become association lists
that preserve insertion order, as Python dicts do. -/

/-- One element of a content array: either a JSON span object (of which the
text projection reads only the optional `text` field; other span fields,
never read by regtest.py, are not carried) or a plain string scalar from
the legacy [style, text] pair encoding. -/
inductive ConEl
  | obj (text : Option String)
  | str (s : String)
deriving DecidableEq

/-- A window descriptor from an update's `windows` array. Only the fields
read by regtest.py (lines 782-793) are kept: id, type, gridheight. -/
structure WinArg where
  id : Int
  wtype : Option String
  gridheight : Option Int
deriving DecidableEq

/-- A buffer text entry (regtest.py 813-826): truthiness of the `append`
flag and the span content array. -/
structure TextArg where
  append : Bool
  content : Option (List ConEl)
deriving DecidableEq

/-- A grid line entry (regtest.py 829-836): line number and content. -/
structure GridLineArg where
  line : Int
  content : Option (List ConEl)
deriving DecidableEq

/-- A per-window content delta (regtest.py 803-842). The `draw` payload is
opaque to the harness; it is carried as a list of integers. -/
structure ContentArg where
  id : Int
  text : Option (List TextArg)
  lines : Option (List GridLineArg)
  draw : Option (List Int)
deriving DecidableEq

/-- An input-request descriptor (regtest.py 858-870): id, type, generation,
and truthiness of the hyperlink and mouse flags. -/
structure InArg where
  id : Option Int
  itype : Option String
  gen : Option Int
  hyperlink : Bool
  mouse : Bool
deriving DecidableEq

/-- The `specialinput` object (regtest.py 846-847). -/
structure SpecialArg where
  stype : Option String
deriving DecidableEq

/-- An inbound update object; every field is optional. -/
structure Update where
  gen : Option Int
  windows : Option (List WinArg)
  content : Option (List ContentArg)
  input : Option (List InArg)
  specialinput : Option SpecialArg
deriving DecidableEq

/-- Insertion into a Python dict modelled as an insertion-ordered
association list: an existing key keeps its position and gets the new
value; a new key is appended at the end. -/
def dictInsert {α : Type} (k : Int) (v : α) : List (Int × α) → List (Int × α)
  | [] => [(k, v)]
  | (k', v') :: rest => if k' = k then (k, v) :: rest else (k', v') :: dictInsert k v rest

/-- Python dict lookup (dict.get, returning None when absent). -/
def dictGet {α : Type} (k : Int) : List (Int × α) → Option α
  | [] => none
  | (k', v) :: rest => if k' = k then some v else dictGet k rest

/-- Replace the last element of a list (Python `l[-1] = f(l[-1])`);
a no-op on the empty list, which the callers guard against. -/
def modify_last {α : Type} (f : α → α) : List α → List α
  | [] => []
  | [a] => [f a]
  | a :: b :: rest => a :: modify_last f (b :: rest)

/-- Replace the element at a given index (Python `l[n] = f(l[n])`);
a no-op out of bounds, which the callers guard against. -/
def modify_at {α : Type} (n : Nat) (f : α → α) : List α → List α
  | [] => []
  | a :: rest =>
    match n with
    | 0 => f a :: rest
    | Nat.succ m => a :: modify_at m f rest

/-- Python list slice l[0:t] for a possibly negative int t (regtest.py 795
truncates the status projection with an int total height). -/
def pySliceTo {α : Type} (t : Int) (l : List α) : List α :=
  if t < 0 then l.take ((l.length : Int) + t).toNat else l.take t.toNat

/-- The reconstructed display state of GameStateRemGlk (regtest.py 524-538
and 652-669): the window dict, the per-grid starting offsets inside the
agglomerated status projection, the status/story/graphics projections in
text and raw form, the generation counter, the input foci and the special
input marker. -/
structure RegState where
  generation : Option Int
  windows : List (Int × WinArg)
  statuslinestarts : List (Int × Int)
  statuswin : List String
  statuswindat : List (List (List ConEl))
  storywin : List String
  storywindat : List (List (List ConEl))
  graphicswin : List String
  graphicswindat : List (List (List Int))
  lineinputwin : Option Int
  charinputwin : Option Int
  hyperlinkinputwin : Option Int
  mouseinputwin : Option Int
  specialinput : Option String
deriving DecidableEq

/-- The state right after GameStateRemGlk.initialize (regtest.py 652-669),
with the containers from the GameState constructor (524-538). -/
def initialRegState : RegState :=
  { generation := some 0, windows := [], statuslinestarts := [],
    statuswin := [], statuswindat := [], storywin := [], storywindat := [],
    graphicswin := [], graphicswindat := [],
    lineinputwin := none, charinputwin := none, hyperlinkinputwin := none,
    mouseinputwin := none, specialinput := none }

/-- The walk of GameStateRemGlk.extract_text (regtest.py 619-628): a dict
element contributes its `text` field (default ''); a scalar style consumes
the following element, whatever it is, as the text. A trailing scalar with
no follower indexes past the end. -/
def extract_walk : List ConEl → Except String (List ConEl)
  | [] => Except.ok []
  | ConEl.obj t :: rest => (extract_walk rest).map (fun l => ConEl.str (t.getD "") :: l)
  | ConEl.str _ :: next :: rest => (extract_walk rest).map (fun l => next :: l)
  | [ConEl.str _] => Except.error "IndexError: list index out of range"

/-- Python ''.join over the collected items (regtest.py 629); joining a
non-string item raises. In the source the walk completes before the join
raises, but no effect of the walk is observable, so raising on first
encounter is equivalent. -/
def join_strs : List ConEl → Except String String
  | [] => Except.ok ""
  | ConEl.str s :: rest => (join_strs rest).map (fun r => s ++ r)
  | ConEl.obj _ :: _ => Except.error "TypeError: sequence item: expected str instance"

/-- GameStateRemGlk.extract_text (regtest.py 613-629): a missing or empty
content array yields the empty string. -/
def extract_text (content : Option (List ConEl)) : Except String String :=
  match content with
  | none => Except.ok ""
  | some con =>
    if con.isEmpty then Except.ok ""
    else (extract_walk con).bind join_strs

/-- GameStateRemGlk.extract_raw (regtest.py 631-637). -/
def extract_raw (content : Option (List ConEl)) : List ConEl :=
  match content with
  | none => []
  | some con => con

/-- The loop of regtest.py 791-793: record each grid window's starting line
and accumulate the total height, in iteration order. -/
def build_statuslinestarts : List WinArg → List (Int × Int) → Int → List (Int × Int) × Int
  | [], starts, totalheight => (starts, totalheight)
  | w :: rest, starts, totalheight =>
    build_statuslinestarts rest (dictInsert w.id totalheight starts)
      (totalheight + w.gridheight.getD 0)

/-- Window-set step of parse_remglk_update (regtest.py 778-799): when the
update carries a `windows` array, the window dict is rebuilt from scratch
from it, the per-grid starting offsets are recomputed over the grid windows
in the dict's iteration order, and the status projections are truncated or
padded with blank lines to the new total height (the padding count is
driven by the length of the text projection, as in the source's while
loop). When `windows` is absent nothing changes. -/
def apply_windows (s : RegState) : Option (List WinArg) → RegState
  | none => s
  | some ws =>
    let windows := ws.foldl (fun acc w => dictInsert w.id w acc) []
    let grids := (windows.map Prod.snd).filter (fun w => decide (w.wtype = some "grid"))
    let startpair := build_statuslinestarts grids [] 0
    let totalheight := startpair.2
    let truncate := totalheight < (s.statuswin.length : Int)
    let statuswin1 := if truncate then pySliceTo totalheight s.statuswin else s.statuswin
    let statuswindat1 := if truncate then pySliceTo totalheight s.statuswindat else s.statuswindat
    let padcount := (totalheight - (statuswin1.length : Int)).toNat
    { s with windows := windows, statuslinestarts := startpair.1,
             statuswin := statuswin1 ++ List.replicate padcount "",
             statuswindat := statuswindat1 ++ List.replicate padcount [] }

/-- Buffer branch of the content loop, one text entry (regtest.py 813-826):
extract the text, then extend the last paragraph when the entry's `append`
flag is truthy and a prior paragraph exists, else start a new paragraph;
same for the raw projection, whose paragraphs are lists of raw arrays. -/
def apply_buffer_line (s : RegState) (l : TextArg) : Except String RegState :=
  (extract_text l.content).map (fun dat =>
    let storywin :=
      if l.append && !s.storywin.isEmpty then modify_last (fun x => x ++ dat) s.storywin
      else s.storywin ++ [dat]
    let raw := extract_raw l.content
    let storywindat :=
      if l.append && !s.storywindat.isEmpty then
        modify_last (fun x => x ++ [raw]) s.storywindat
      else s.storywindat ++ [[raw]]
    { s with storywin := storywin, storywindat := storywindat })

/-- Buffer branch of the content loop (regtest.py 811-826). -/
def apply_buffer_lines : RegState → List TextArg → Except String RegState
  | s, [] => Except.ok s
  | s, l :: rest =>
    match apply_buffer_line s l with
    | Except.error e => Except.error e
    | Except.ok s' => apply_buffer_lines s' rest

/-- Grid branch of the content loop, one line entry (regtest.py 829-836):
the aggregate line number is the grid's recorded start (a KeyError if never
recorded) plus the entry's line index; in-bounds indices are overwritten in
the text projection and appended to in the raw projection, out-of-bounds
indices are silently skipped. -/
def apply_grid_line (winid : Int) (s : RegState) (l : GridLineArg) : Except String RegState :=
  match dictGet winid s.statuslinestarts with
  | none => Except.error "KeyError: statuslinestarts"
  | some off =>
    (extract_text l.content).map (fun dat =>
      let linenum := off + l.line
      let statuswin :=
        if 0 ≤ linenum ∧ linenum < (s.statuswin.length : Int) then
          s.statuswin.set linenum.toNat dat
        else s.statuswin
      let raw := extract_raw l.content
      let statuswindat :=
        if 0 ≤ linenum ∧ linenum < (s.statuswindat.length : Int) then
          modify_at linenum.toNat (fun x => x ++ [raw]) s.statuswindat
        else s.statuswindat
      { s with statuswin := statuswin, statuswindat := statuswindat })

/-- Grid branch of the content loop (regtest.py 827-836). -/
def apply_grid_lines (winid : Int) : RegState → List GridLineArg → Except String RegState
  | s, [] => Except.ok s
  | s, l :: rest =>
    match apply_grid_line winid s l with
    | Except.error e => Except.error e
    | Except.ok s' => apply_grid_lines winid s' rest

/-- One element of the content loop (regtest.py 803-842): resolve the
window by id (a missing window is a protocol error) and dispatch on its
type; a buffer delta first resets the story projections, a graphics delta
resets the graphics projections; a window of any other type is ignored.
A grid delta without a `lines` array iterates None and raises. -/
def apply_one_content (s : RegState) (c : ContentArg) : Except String RegState :=
  match dictGet c.id s.windows with
  | none => Except.error "No such window"
  | some win =>
    if win.wtype = some "buffer" then
      let s1 := { s with storywin := [], storywindat := [] }
      match c.text with
      | none => Except.ok s1
      | some text => if text.isEmpty then Except.ok s1 else apply_buffer_lines s1 text
    else if win.wtype = some "grid" then
      match c.lines with
      | none => Except.error "TypeError: NoneType is not iterable"
      | some lines => apply_grid_lines c.id s lines
    else if win.wtype = some "graphics" then
      let gdat : List (List (List Int)) :=
        match c.draw with
        | some d => if d.isEmpty then [] else [[d]]
        | none => []
      Except.ok { s with graphicswin := [], graphicswindat := gdat }
    else Except.ok s

/-- Content step of parse_remglk_update (regtest.py 801-842). -/
def apply_contents : RegState → List ContentArg → Except String RegState
  | s, [] => Except.ok s
  | s, c :: rest =>
    match apply_one_content s c with
    | Except.error e => Except.error e
    | Except.ok s' => apply_contents s' rest

/-- Line clause of the input loop (regtest.py 859-862). The multiple-claim
guard tests Python truthiness of the already-stored window id, so a first
claimant whose id is 0 or missing does not arm the check. -/
def proc_input_line (s : RegState) (a : InArg) : Except String RegState :=
  if a.itype = some "line" then
    if pyTruthyInt s.lineinputwin then
      Except.error "Multiple windows accepting line input"
    else Except.ok { s with lineinputwin := a.id }
  else Except.ok s

/-- Char clause of the input loop (regtest.py 863-866), with the same
truthiness guard as the line clause. -/
def proc_input_char (s : RegState) (a : InArg) : Except String RegState :=
  if a.itype = some "char" then
    if pyTruthyInt s.charinputwin then
      Except.error "Multiple windows accepting char input"
    else Except.ok { s with charinputwin := a.id }
  else Except.ok s

/-- One iteration of the input loop (regtest.py 858-870): the line clause,
the char clause, then the hyperlink and mouse flag clauses. -/
def proc_one_input (s : RegState) (a : InArg) : Except String RegState :=
  match proc_input_line s a with
  | Except.error e => Except.error e
  | Except.ok s1 =>
    match proc_input_char s1 a with
    | Except.error e => Except.error e
    | Except.ok s2 =>
      let s3 := if a.hyperlink then { s2 with hyperlinkinputwin := a.id } else s2
      Except.ok (if a.mouse then { s3 with mouseinputwin := a.id } else s3)

/-- The input loop (regtest.py 858-870). -/
def proc_inputs : RegState → List InArg → Except String RegState
  | s, [] => Except.ok s
  | s, a :: rest =>
    match proc_one_input s a with
    | Except.error e => Except.error e
    | Except.ok s' => proc_inputs s' rest

/-- Input step of parse_remglk_update (regtest.py 844-870): a present
specialinput records its type and clears all foci; otherwise a present
input array clears all foci and replays the descriptors; when neither is
present the previous foci persist. -/
def apply_inputs (s : RegState) (inputs : Option (List InArg))
    (specialinputs : Option SpecialArg) : Except String RegState :=
  match specialinputs with
  | some sp =>
    Except.ok { s with
                specialinput := sp.stype, lineinputwin := none,
                charinputwin := none, hyperlinkinputwin := none,
                mouseinputwin := none }
  | none =>
    match inputs with
    | none => Except.ok s
    | some args =>
      proc_inputs { s with
                    specialinput := none, lineinputwin := none,
                    charinputwin := none, hyperlinkinputwin := none,
                    mouseinputwin := none } args

/-- GameStateRemGlk.parse_remglk_update (regtest.py 768-870): assign the
generation from the update, rebuild the window set if given, fold in the
content deltas, then process the input requests. An absent content field
and an empty content array both run the loop zero times. A raised protocol
error aborts the remaining steps (the Python object would keep the
mutations already made; only the error and fully-processed states are
observable to the driver). -/
def parse_remglk_update (s : RegState) (u : Update) : Except String RegState :=
  let s1 := { s with generation := u.gen }
  let s2 := apply_windows s1 u.windows
  match apply_contents s2 (u.content.getD []) with
  | Except.error e => Except.error e
  | Except.ok s3 => apply_inputs s3 u.input u.specialinput

/-- The starting offset claim C5 asserts for a grid id: the sum of the
gridheights of the grid windows with strictly smaller id (ascending-id
order). Stated from the claim's words for comparison with the source. -/
def ascending_offset (ws : List WinArg) (i : Int) : Int :=
  ((ws.filter (fun w => decide (w.wtype = some "grid") && decide (w.id < i))).map
    (fun w => w.gridheight.getD 0)).sum

/-- The offsets the source actually records (amended C5): the grid windows
in the order they appear in the update's windows array, each offset the sum
of the gridheights of the grids listed before it. -/
def offsets_in_list_order : List WinArg → Int → List (Int × Int)
  | [], _ => []
  | w :: rest, acc => (w.id, acc) :: offsets_in_list_order rest (acc + w.gridheight.getD 0)

/-- Decidable equality for Except results, used to evaluate the embedding
on concrete inputs. -/
instance instDecEqExcept {e a : Type} [DecidableEq e] [DecidableEq a] :
    DecidableEq (Except e a) := fun x y =>
  match x, y with
  | Except.error e1, Except.error e2 =>
    if h : e1 = e2 then isTrue (by rw [h]) else isFalse (fun he => h (Except.error.inj he))
  | Except.error _, Except.ok _ => isFalse (fun he => Except.noConfusion he)
  | Except.ok _, Except.error _ => isFalse (fun he => Except.noConfusion he)
  | Except.ok a1, Except.ok a2 =>
    if h : a1 = a2 then isTrue (by rw [h]) else isFalse (fun he => h (Except.ok.inj he))

/-- State components that the content and input steps of
parse_remglk_update never modify: the generation, the window dict, the
grid offsets, and the length of the status text projection. -/
def content_frame (s s' : RegState) : Prop :=
  s'.generation = s.generation ∧ s'.windows = s.windows ∧
  s'.statuslinestarts = s.statuslinestarts ∧
  s'.statuswin.length = s.statuswin.length

/-- The state produced by one non-erroring iteration of the input loop:
the line and char clauses store the descriptor's id when its type matches;
the hyperlink and mouse clauses store it when the respective flag is
truthy (regtest.py 858-870). -/
def proc_input_pure (st : RegState) (a : InArg) : RegState :=
  let st1 := if a.itype = some "line" then { st with lineinputwin := a.id } else st
  let st2 := if a.itype = some "char" then { st1 with charinputwin := a.id } else st1
  let st3 := if a.hyperlink then { st2 with hyperlinkinputwin := a.id } else st2
  if a.mouse then { st3 with mouseinputwin := a.id } else st3

/-! ### Include expansion (regtest.py, list_commands, lines 1150-1166) -/

/-- A test-script command as list_commands sees it: the function inspects
only whether cmd.type == 'include' and, for includes, the included test's
name (cmd.cmd); all other commands pass through untouched, so they are
carried opaquely as their type and payload strings. -/
inductive RCommand
  | incl (name : String)
  | plain (ctype : String) (cmd : String)
deriving DecidableEq

/-- Whether a command is an Include. -/
def isIncludeCmd : RCommand → Bool
  | RCommand.incl _ => true
  | RCommand.plain _ _ => false

/-- The global testmap (name → test), reduced to what list_commands reads:
each test's command list. Lookup is testmap.get(name). -/
def testmap_get (name : String) : List (String × List RCommand) → Option (List RCommand)
  | [] => none
  | (n, cmds) :: rest => if n = name then some cmds else testmap_get name rest

/-- regtest.py list_commands (1150-1166): walk the command list; an Include
whose name is already on the ancestor stack raises the cycle error; an
Include of an unknown test raises; otherwise the named test's command list
is expanded recursively in place, with the name pushed on the stack. The
source accumulates into a shared res list; returning the concatenation is
the same order. Termination: each nested include consumes one testmap name
not yet on the stack. -/
def list_commands (tm : List (String × List RCommand)) :
    List RCommand → List String → Except String (List RCommand)
  | [], _ => Except.ok []
  | RCommand.incl name :: rest, nested =>
    if hmem : name ∈ nested then
      Except.error ("Included test includes itself: " ++ name)
    else
      match htest : testmap_get name tm with
      | none => Except.error ("Included test not found: " ++ name)
      | some cmds =>
        match list_commands tm cmds (nested ++ [name]) with
        | Except.error e => Except.error e
        | Except.ok sub =>
          match list_commands tm rest nested with
          | Except.error e => Except.error e
          | Except.ok tail => Except.ok (sub ++ tail)
  | RCommand.plain t c :: rest, nested =>
    match list_commands tm rest nested with
    | Except.error e => Except.error e
    | Except.ok tail => Except.ok (RCommand.plain t c :: tail)
termination_by ls nested =>
  (((tm.map Prod.fst).filter (fun n => decide (¬ n ∈ nested))).length, ls.length)
decreasing_by
  · apply Prod.Lex.left
    have hkey : name ∈ tm.map Prod.fst := by
      clear hmem
      induction tm with
      | nil => exact absurd htest (by simp [testmap_get])
      | cons p rest2 ih =>
        obtain ⟨n, cs⟩ := p
        by_cases hp : n = name
        · rw [List.map_cons, hp]
          exact List.mem_cons_self _ _
        · have hstep : testmap_get name ((n, cs) :: rest2) = testmap_get name rest2 := by
            show (if n = name then some cs else testmap_get name rest2) = _
            rw [if_neg hp]
          rw [hstep] at htest
          exact List.mem_cons_of_mem _ (ih htest)
    have hsub : List.Sublist
        ((tm.map Prod.fst).filter (fun n => decide (¬ n ∈ nested ++ [name])))
        ((tm.map Prod.fst).filter (fun n => decide (¬ n ∈ nested))) := by
      apply List.monotone_filter_right
      intro a ha
      simp only [decide_eq_true_eq] at ha ⊢
      exact fun hmemn => ha (List.mem_append_left _ hmemn)
    refine Nat.lt_of_le_of_ne hsub.length_le ?_
    intro heq
    have heq2 := hsub.eq_of_length heq
    have hold : name ∈ (tm.map Prod.fst).filter (fun n => decide (¬ n ∈ nested)) :=
      List.mem_filter.mpr ⟨hkey, by simp [hmem]⟩
    rw [← heq2] at hold
    have hnot := (List.mem_filter.mp hold).2
    simp only [decide_eq_true_eq] at hnot
    exact hnot (List.mem_append_right _ (List.mem_singleton.mpr rfl))
  · apply Prod.Lex.right
    simp
  · apply Prod.Lex.right
    simp

/-! ### Twin reconstructor in ifomatic.py: input cancellation and content

ifomatic.py keeps per-window state objects (GlkWindow) in a dict; the
pieces the claims exercise are accept_inputcancel (464-478) and
accept_one_content (537-626). -/

/-- One element of an ifomatic content array: a span dict (with the fields
the code reads: special, style, text, hyperlink, and the image fields read
by GlkSpecialSpan) or a plain string scalar from the legacy pair
encoding. -/
inductive IfoConEl
  | dictEl (special : Option String) (style : Option String) (text : Option String)
      (hyperlink : Option Int) (image : Option Int) (alignment : Option String)
      (alttext : Option String) (width : Option Int) (height : Option Int)
  | strEl (s : String)
deriving DecidableEq

/-- GlkSpecialSpan (ifomatic.py 228-240): carries the special type; an
image special also carries image id (required) and the optional
alignment/alttext/width/height; other specials carry nothing more. -/
structure GlkSpecialSpan where
  stype : String
  image : Option Int
  alignment : Option String
  alttext : Option String
  width : Option Int
  height : Option Int
deriving DecidableEq

/-- GlkSpecialSpan.__init__ (ifomatic.py 229-240): `arg['image']` raises
KeyError when the image id is missing on an image special. -/
def mkGlkSpecialSpan (special : String) (image : Option Int)
    (alignment alttext : Option String) (width height : Option Int) :
    Except String GlkSpecialSpan :=
  if special = "image" then
    match image with
    | none => Except.error "KeyError: image"
    | some v => Except.ok ⟨special, some v, alignment, alttext, width, height⟩
  else Except.ok ⟨special, none, none, none, none, none⟩

/-- A decoded span stored in a window: a special span or the (style, text,
hyperlink) tuple of ifomatic.py 569/618; in the legacy scalar-pair branch
the text slot receives the raw following element, whatever it is. -/
inductive BufSpan
  | special (sp : GlkSpecialSpan)
  | tuple (style : String) (text : IfoConEl) (hyperlink : Option Int)
deriving DecidableEq

/-- GlkBufferLine (ifomatic.py 217-226): a paragraph's span list and its
flow-break flag, both empty/false at construction. -/
structure GlkBufferLine where
  ls : List BufSpan
  flowbreak : Bool
deriving DecidableEq

/-- A freshly constructed GlkBufferLine. -/
def GlkBufferLine.new : GlkBufferLine := ⟨[], false⟩

/-- GlkWindowInput (ifomatic.py 206-215): the pending-input record. -/
structure GlkWindowInput where
  id : Option Int
  itype : Option String
  gen : Option Int
  maxlen : Option Int
deriving DecidableEq

/-- GlkWindow (ifomatic.py 182-204). The buffer/grid containers are lists;
the constructor initializes them only for the matching window type, and a
window's type never changes, so the lists are meaningful exactly when the
type matches. -/
structure GlkWindow where
  id : Int
  wtype : String
  rock : Int
  buflines : List GlkBufferLine
  gridheight : Int
  gridwidth : Int
  gridlines : List (List BufSpan)
  input : Option GlkWindowInput
  reqhyperlink : Bool
  reqmouse : Bool
  inplace : Bool
  posleft : Int
  postop : Int
  poswidth : Int
  posheight : Int
deriving DecidableEq

/-- An input-request descriptor as ifomatic reads it. -/
structure IfoInArg where
  id : Option Int
  itype : Option String
  gen : Option Int
  hyperlink : Bool
  mouse : Bool
deriving DecidableEq

/-- The hasinput dict of accept_inputcancel (ifomatic.py 468-471): typed
descriptors keyed by `argi['id']` (a KeyError when the id is missing). -/
def build_hasinput : List IfoInArg → List (Int × IfoInArg) →
    Except String (List (Int × IfoInArg))
  | [], acc => Except.ok acc
  | a :: rest, acc =>
    if pyTruthyStr a.itype then
      match a.id with
      | none => Except.error "KeyError: id"
      | some i => build_hasinput rest (dictInsert i a acc)
    else build_hasinput rest acc

/-- GameStateRemGlk.accept_inputcancel (ifomatic.py 464-478). The loop
body looks up `hasinput.get('winid')` — the literal string 'winid', not
the loop variable winid — in a dict keyed by integer window ids, so the
lookup always returns None and the condition
`(argi is None) or (argi['gen'] > win.input.gen)` always cancels: every
pending input is cleared whenever the update carries an input array. The
hasinput dict is still built first, with its possible KeyError. -/
def accept_inputcancel (windowdic : List (Int × GlkWindow))
    (arg : Option (List IfoInArg)) : Except String (List (Int × GlkWindow)) :=
  match arg with
  | none => Except.ok windowdic
  | some args =>
    match build_hasinput args [] with
    | Except.error e => Except.error e
    | Except.ok _hasinput =>
      Except.ok (windowdic.map (fun p =>
        if p.2.input.isSome then (p.1, { p.2 with input := none }) else p))

/-- The cancellation rule claim C3 states (the behavior the spec mandates,
written from the claim's words for comparison with the source): a pending
input is cleared iff the incoming set holds no descriptor for that
window's id, or the descriptor for that id carries a strictly newer
generation than the pending input. -/
def accept_inputcancel_claimed (windowdic : List (Int × GlkWindow))
    (arg : Option (List IfoInArg)) : Except String (List (Int × GlkWindow)) :=
  match arg with
  | none => Except.ok windowdic
  | some args =>
    match build_hasinput args [] with
    | Except.error e => Except.error e
    | Except.ok hasinput =>
      Except.ok (windowdic.map (fun p =>
        match p.2.input with
        | none => p
        | some inp =>
          match dictGet p.1 hasinput with
          | none => (p.1, { p.2 with input := none })
          | some argi =>
            match argi.gen, inp.gen with
            | some ag, some ig =>
              if ig < ag then (p.1, { p.2 with input := none }) else p
            | _, _ => p))

/-- A buffer text entry as ifomatic reads it (573-599): append and
flowbreak flags (truthiness) and the span content array. -/
structure IfoTextArg where
  append : Bool
  flowbreak : Bool
  content : Option (List IfoConEl)
deriving DecidableEq

/-- A grid line entry as ifomatic reads it (548-552). -/
structure IfoGridLineArg where
  line : Int
  content : Option (List IfoConEl)
deriving DecidableEq

/-- A per-window content delta as ifomatic reads it (537-626). -/
structure IfoContentArg where
  id : Option Int
  clear : Bool
  text : Option (List IfoTextArg)
  lines : Option (List IfoGridLineArg)
  draw : Option (List Int)
deriving DecidableEq

/-- Python truthiness of an optional content array (`content is None or
not len(content)` at ifomatic.py 588/598). -/
def content_empty (c : Option (List IfoConEl)) : Bool :=
  match c with
  | none => true
  | some l => l.isEmpty

/-- The buffer span walk of ifomatic.py 601-619: a dict with a special
builds a GlkSpecialSpan; a plain dict needs style and text (KeyError
otherwise); a scalar consumes the next element, whatever it is, as the
text of a (style, text, hyperlink) tuple; a trailing scalar with no
follower indexes past the end. -/
def decode_buffer_spans : List IfoConEl → Except String (List BufSpan)
  | [] => Except.ok []
  | IfoConEl.dictEl special style text hyperlink image alignment alttext width height
      :: rest =>
    match special with
    | some sp =>
      match mkGlkSpecialSpan sp image alignment alttext width height with
      | Except.error e => Except.error e
      | Except.ok el => (decode_buffer_spans rest).map (fun l => BufSpan.special el :: l)
    | none =>
      match style with
      | none => Except.error "KeyError: style"
      | some rstyle =>
        match text with
        | none => Except.error "KeyError: text"
        | some rtext =>
          (decode_buffer_spans rest).map
            (fun l => BufSpan.tuple rstyle (IfoConEl.strEl rtext) hyperlink :: l)
  | IfoConEl.strEl s :: next :: rest =>
    (decode_buffer_spans rest).map (fun l => BufSpan.tuple s next none :: l)
  | [IfoConEl.strEl _] => Except.error "IndexError: list index out of range"

/-- The grid span walk of ifomatic.py 553-570: like the buffer walk but a
special dict is skipped (continue) instead of stored. -/
def decode_grid_spans : List IfoConEl → Except String (List BufSpan)
  | [] => Except.ok []
  | IfoConEl.dictEl special style text hyperlink _ _ _ _ _ :: rest =>
    match special with
    | some _ => decode_grid_spans rest
    | none =>
      match style with
      | none => Except.error "KeyError: style"
      | some rstyle =>
        match text with
        | none => Except.error "KeyError: text"
        | some rtext =>
          (decode_grid_spans rest).map
            (fun l => BufSpan.tuple rstyle (IfoConEl.strEl rtext) hyperlink :: l)
  | IfoConEl.strEl s :: next :: rest =>
    (decode_grid_spans rest).map (fun l => BufSpan.tuple s next none :: l)
  | [IfoConEl.strEl _] => Except.error "IndexError: list index out of range"

/-- One buffer text entry applied to the paragraph list (ifomatic.py
584-619). An append entry with empty content is skipped. Otherwise the
target paragraph is the last one (reused when append is set, content is
non-empty and a paragraph exists; freshly appended in every other case).
A truthy flowbreak then hits `divel.flowbreak = True` (line 596): `divel`
is an undefined name — a leftover from the GlkOte JS source — so Python
raises NameError. Then empty content ends the entry, and otherwise the
decoded spans are appended to the target paragraph. -/
def accept_one_bufline (buflines : List GlkBufferLine) (l : IfoTextArg) :
    Except String (List GlkBufferLine) :=
  if l.append && content_empty l.content then
    Except.ok buflines
  else
    let buflines1 :=
      if l.append && !buflines.isEmpty then buflines
      else buflines ++ [GlkBufferLine.new]
    if l.flowbreak then
      Except.error "NameError: name divel is not defined"
    else if content_empty l.content then
      Except.ok buflines1
    else
      match decode_buffer_spans (l.content.getD []) with
      | Except.error e => Except.error e
      | Except.ok spans =>
        Except.ok (modify_last (fun bl => { bl with ls := bl.ls ++ spans }) buflines1)

/-- The buffer text loop (ifomatic.py 584-619). -/
def accept_buflines : List GlkBufferLine → List IfoTextArg →
    Except String (List GlkBufferLine)
  | buflines, [] => Except.ok buflines
  | buflines, l :: rest =>
    match accept_one_bufline buflines l with
    | Except.error e => Except.error e
    | Except.ok buflines' => accept_buflines buflines' rest

/-- One grid line entry (ifomatic.py 548-570): `win.gridlines[linenum]`
uses Python indexing (negative indices count from the end; out of range
raises IndexError); the line is cleared and the decoded spans appended,
i.e. replaced. -/
def accept_grid_line (win : GlkWindow) (l : IfoGridLineArg) :
    Except String GlkWindow :=
  let n : Int := win.gridlines.length
  let idx : Option Nat :=
    if 0 ≤ l.line then (if l.line < n then some l.line.toNat else none)
    else (if 0 ≤ l.line + n then some (l.line + n).toNat else none)
  match idx with
  | none => Except.error "IndexError: list index out of range"
  | some ix =>
    match (match l.content with
           | none => Except.ok []
           | some con => if con.isEmpty then Except.ok [] else decode_grid_spans con) with
    | Except.error e => Except.error e
    | Except.ok spans => Except.ok { win with gridlines := win.gridlines.set ix spans }

/-- The grid line loop (ifomatic.py 548-570). -/
def accept_grid_lines : GlkWindow → List IfoGridLineArg → Except String GlkWindow
  | win, [] => Except.ok win
  | win, l :: rest =>
    match accept_grid_line win l with
    | Except.error e => Except.error e
    | Except.ok win' => accept_grid_lines win' rest

/-- GameStateRemGlk.accept_one_content (ifomatic.py 537-626): resolve the
window by id ('No such window' otherwise); content while the window awaits
line input is a protocol violation; a grid window replaces the given lines
(`arg['lines']` raises when absent); a buffer window clears its paragraphs
when `clear` is set and folds in the text entries; a graphics window is a
no-op (the draw payload is read and discarded by the source's `pass`). -/
def accept_one_content (windowdic : List (Int × GlkWindow)) (arg : IfoContentArg) :
    Except String (List (Int × GlkWindow)) :=
  match (match arg.id with
         | none => none
         | some i => (dictGet i windowdic).map (fun w => (i, w))) with
  | none => Except.error "No such window"
  | some (i, win) =>
    if (match win.input with
        | some inp => decide (inp.itype = some "line")
        | none => false) then
      Except.error "Window is awaiting line input."
    else
      match (if win.wtype = "grid" then
               match arg.lines with
               | none => Except.error "KeyError: lines"
               | some ls => accept_grid_lines win ls
             else Except.ok win : Except String GlkWindow) with
      | Except.error e => Except.error e
      | Except.ok win1 =>
        match (if win1.wtype = "buffer" then
                 let start := if arg.clear then [] else win1.buflines
                 match accept_buflines start (arg.text.getD []) with
                 | Except.error e => Except.error e
                 | Except.ok bl => Except.ok { win1 with buflines := bl }
               else Except.ok win1 : Except String GlkWindow) with
        | Except.error e => Except.error e
        | Except.ok win2 => Except.ok (dictInsert i win2 windowdic)

/-! ### Concrete example values used by witnesses and counterexamples -/

/-- Two grid windows in array order: id 1 (height 2), then id 5 (height 3). -/
def c5_ws : List WinArg := [⟨1, some "grid", some 2⟩, ⟨5, some "grid", some 3⟩]

/-- An update carrying only the window list c5_ws. -/
def c5_update : Update :=
  { gen := some 1, windows := some c5_ws, content := none, input := none,
    specialinput := none }

/-- The state produced by parsing c5_update from the initial state. -/
def c5_result : RegState :=
  { initialRegState with
      generation := some 1,
      windows := [(1, ⟨1, some "grid", some 2⟩), (5, ⟨5, some "grid", some 3⟩)],
      statuslinestarts := [(1, 0), (5, 2)],
      statuswin := ["", "", "", "", ""],
      statuswindat := [[], [], [], [], []] }

/-- A state with one grid window of height 1 whose block starts at
aggregate line 1 of a two-line status projection. -/
def c10_state : RegState :=
  { initialRegState with
      windows := [(2, ⟨2, some "grid", some 1⟩)],
      statuslinestarts := [(2, 1)],
      statuswin := ["a", "b"],
      statuswindat := [[], []] }

/-- An update with no windows field and no content. -/
def c10_update : Update :=
  { gen := some 2, windows := none, content := none, input := none,
    specialinput := none }

/-- An input array with two line descriptors of which the first carries
id 0 (falsy in Python), so the multiple-claim guard never arms. -/
def c8_update : Update :=
  { gen := some 1, windows := none, content := none,
    input := some [⟨some 0, some "line", none, false, false⟩,
                   ⟨some 5, some "line", none, false, false⟩],
    specialinput := none }

/-- An input array with two line descriptors with nonzero ids. -/
def c8w_update : Update :=
  { gen := some 1, windows := none, content := none,
    input := some [⟨some 4, some "line", none, false, false⟩,
                   ⟨some 5, some "line", none, false, false⟩],
    specialinput := none }

/-- A buffer window with a pending line input at generation 3. -/
def c3_win : GlkWindow :=
  { id := 1, wtype := "buffer", rock := 0, buflines := [], gridheight := 0,
    gridwidth := 0, gridlines := [], input := some ⟨some 1, some "line", some 3, some 1⟩,
    reqhyperlink := false, reqmouse := false, inplace := true, posleft := 0,
    postop := 0, poswidth := 0, posheight := 0 }

/-- The window dict holding only c3_win. -/
def c3_windowdic : List (Int × GlkWindow) := [(1, c3_win)]

/-- An incoming input set holding a descriptor for window 1 of the same
generation 3 as the pending input. -/
def c3_args : List IfoInArg := [⟨some 1, some "line", some 3, false, false⟩]

/-- A buffer window with no pending input and no paragraphs. -/
def c4_win : GlkWindow :=
  { id := 1, wtype := "buffer", rock := 0, buflines := [], gridheight := 0,
    gridwidth := 0, gridlines := [], input := none, reqhyperlink := false,
    reqmouse := false, inplace := true, posleft := 0, postop := 0,
    poswidth := 0, posheight := 0 }

/-- The window dict holding only c4_win. -/
def c4_windowdic : List (Int × GlkWindow) := [(1, c4_win)]

/-- A buffer content delta whose single paragraph entry carries the
flowbreak flag. -/
def c4_flowbreak_arg : IfoContentArg :=
  { id := some 1, clear := false, text := some [⟨false, true, none⟩],
    lines := none, draw := none }

/-- A buffer content delta: a paragraph "Hello" followed by an append
entry " world" (legacy [style, text] pair encoding). -/
def c4_two_entries : IfoContentArg :=
  { id := some 1, clear := false,
    text := some [⟨false, false, some [IfoConEl.strEl "s", IfoConEl.strEl "Hello"]⟩,
                  ⟨true, false, some [IfoConEl.strEl "s", IfoConEl.strEl " world"]⟩],
    lines := none, draw := none }

/-- A buffer content delta with a single append entry and no prior
paragraph. -/
def c4_append_only : IfoContentArg :=
  { id := some 1, clear := false,
    text := some [⟨true, false, some [IfoConEl.strEl "s", IfoConEl.strEl "Hi"]⟩],
    lines := none, draw := none }

/-- The window dict holding window 1 with one existing paragraph "Old". -/
def c4_loaded_windowdic : List (Int × GlkWindow) :=
  [(1, { c4_win with buflines :=
    [⟨[BufSpan.tuple "s" (IfoConEl.strEl "Old") none], false⟩] })]

/-- A buffer content delta with clear set, carrying one paragraph "New". -/
def c4_clear_arg : IfoContentArg :=
  { id := some 1, clear := true,
    text := some [⟨false, false, some [IfoConEl.strEl "s", IfoConEl.strEl "New"]⟩],
    lines := none, draw := none }

/-! ### Theorems -/

theorem literal_count_line_spec (needle : List Char) (count : Nat) :
    ∀ (s : List Char) (counter : Nat),
      literal_count_line needle count s counter =
        if 1 ≤ occurrences needle s ∧ count ≤ counter + occurrences needle s
        then Sum.inr () else Sum.inl (counter + occurrences needle s) := by
  intro s
  induction s with
  | nil =>
    intro counter
    by_cases h : needle.isPrefixOf ([] : List Char)
    · have elhs : literal_count_line needle count [] counter =
          if count ≤ counter + 1 then Sum.inr () else Sum.inl (counter + 1) := by
        simp [literal_count_line, h]
      have eocc : occurrences needle ([] : List Char) = 1 := by
        simp [occurrences, h]
      rw [elhs, eocc]
      split_ifs <;> first | rfl | (exfalso; omega) | (congr 1; omega)
    · have elhs : literal_count_line needle count [] counter = Sum.inl counter := by
        simp [literal_count_line, h]
      have eocc : occurrences needle ([] : List Char) = 0 := by
        simp [occurrences, h]
      rw [elhs, eocc]
      split_ifs <;> first | rfl | (exfalso; omega) | (congr 1; omega)
  | cons a t ih =>
    intro counter
    by_cases h : needle.isPrefixOf (a :: t)
    · have elhs : literal_count_line needle count (a :: t) counter =
          if count ≤ counter + 1 then Sum.inr ()
          else literal_count_line needle count t (counter + 1) := by
        simp [literal_count_line, h]
      have eocc : occurrences needle (a :: t) = 1 + occurrences needle t := by
        simp [occurrences, h]
      rw [elhs, eocc, ih (counter + 1)]
      split_ifs <;> first | rfl | (exfalso; omega) | (congr 1; omega)
    · have elhs : literal_count_line needle count (a :: t) counter =
          literal_count_line needle count t counter := by
        simp [literal_count_line, h]
      have eocc : occurrences needle (a :: t) = occurrences needle t := by
        simp [occurrences, h]
      rw [elhs, eocc, ih counter]

theorem literal_count_lines_spec (needle : List Char) (count : Nat) :
    ∀ (lines : List (List Char)) (counter : Nat),
      literal_count_lines needle count lines counter =
        if 1 ≤ total_occurrences needle lines ∧
            count ≤ counter + total_occurrences needle lines then none
        else if counter + total_occurrences needle lines = 0 then some "not found"
        else some ("only found " ++ toString (counter + total_occurrences needle lines)
          ++ " times") := by
  intro lines
  induction lines with
  | nil =>
    intro counter
    by_cases hc : counter = 0
    · simp [literal_count_lines, total_occurrences, hc]
    · simp [literal_count_lines, total_occurrences, hc]
  | cons ln rest ih =>
    intro counter
    have hstep : literal_count_lines needle count (ln :: rest) counter =
        match literal_count_line needle count ln counter with
        | Sum.inl c => literal_count_lines needle count rest c
        | Sum.inr () => none := rfl
    have htot : total_occurrences needle (ln :: rest) =
        occurrences needle ln + total_occurrences needle rest := by
      simp [total_occurrences]
    rw [hstep, literal_count_line_spec, htot]
    by_cases h1 : 1 ≤ occurrences needle ln ∧ count ≤ counter + occurrences needle ln
    · rw [if_pos h1]
      have h2 : 1 ≤ occurrences needle ln + total_occurrences needle rest ∧
          count ≤ counter + (occurrences needle ln + total_occurrences needle rest) := by
        omega
      rw [if_pos h2]
    · rw [if_neg h1]
      show literal_count_lines needle count rest (counter + occurrences needle ln) = _
      rw [ih (counter + occurrences needle ln), ← Nat.add_assoc]
      split_ifs <;> first | rfl | (exfalso; omega)

/-- C7 counterexample. The claim says the check succeeds if and only if the
total occurrence count reaches the threshold n. With threshold n = 0 (the
source's `{count=([0-9]+)}` pattern accepts 0) and no occurrence at all, the
count 0 does reach 0, yet the check fails with 'not found': the success
condition the code implements is count ≥ max(n,1), not count ≥ n. -/
theorem C7_counterexample :
    LiteralCountCheck_subeval ['x'] 0 [['y']] = some "not found" ∧
    total_occurrences ['x'] [['y']] = 0 ∧
    ¬(LiteralCountCheck_subeval ['x'] 0 [['y']] = none ↔
      0 ≤ total_occurrences ['x'] [['y']]) := by
  refine ⟨by decide, by decide, ?_⟩
  intro h
  have := h.mpr (by decide)
  exact absurd this (by decide)

/-- C7 (amended): for every LiteralCount check with threshold n ≥ 1 and
needle t over a list of lines, occurrences are counted by scanning each line
and advancing one position past each found start (overlapping occurrences
count separately); the check succeeds iff the total over all lines reaches
n; on failure the message is 'not found' when the count is zero and
'only found k times' when 0 < k < n. (The n = 0 case is excluded: there the
code still demands one occurrence.) -/
theorem C7_literal_count :
    ∀ (needle : List Char) (count : Nat) (lines : List (List Char)),
      1 ≤ count →
      (LiteralCountCheck_subeval needle count lines = none ↔
        count ≤ total_occurrences needle lines) ∧
      (total_occurrences needle lines = 0 →
        LiteralCountCheck_subeval needle count lines = some "not found") ∧
      (1 ≤ total_occurrences needle lines → total_occurrences needle lines < count →
        LiteralCountCheck_subeval needle count lines =
          some ("only found " ++ toString (total_occurrences needle lines) ++ " times")) := by
  intro needle count lines hcount
  unfold LiteralCountCheck_subeval
  rw [literal_count_lines_spec]
  simp only [Nat.zero_add]
  refine ⟨?_, ?_, ?_⟩
  · by_cases h1 : 1 ≤ total_occurrences needle lines ∧ count ≤ total_occurrences needle lines
    · rw [if_pos h1]
      simp [h1.2]
    · rw [if_neg h1]
      constructor
      · intro h
        split_ifs at h <;> simp_all
      · intro h
        exact absurd ⟨by omega, h⟩ h1
  · intro h0
    rw [if_neg (by omega), if_pos h0]
  · intro hge hlt
    rw [if_neg (by omega), if_neg (by omega)]

/-- C7 witness: needle 'a' with threshold 2 over lines "a", "a". -/
theorem C7_witness :
    1 ≤ 2 ∧
      ((LiteralCountCheck_subeval ['a'] 2 [['a'], ['a']] = none ↔
          2 ≤ total_occurrences ['a'] [['a'], ['a']]) ∧
        (total_occurrences ['a'] [['a'], ['a']] = 0 →
          LiteralCountCheck_subeval ['a'] 2 [['a'], ['a']] = some "not found") ∧
        (1 ≤ total_occurrences ['a'] [['a'], ['a']] →
          total_occurrences ['a'] [['a'], ['a']] < 2 →
          LiteralCountCheck_subeval ['a'] 2 [['a'], ['a']] =
            some ("only found " ++ toString (total_occurrences ['a'] [['a'], ['a']])
              ++ " times"))) :=
  ⟨by decide, C7_literal_count ['a'] 2 [['a'], ['a']] (by decide)⟩

/-- C6: for every check whose subeval is a (deterministic) function of the
selected projection, evaluation with the inverse flag succeeds exactly when
evaluation without it fails, and when the positive form succeeds the
inverted evaluation returns the failure string 'inverse test should fail'.
Success and failure are Python truthiness of the eval result, as consumed
by the driver. -/
theorem C6_inverse_duality :
    ∀ {α : Type} (subeval : α → Option String) (lines : α),
      (check_failed (Check_eval true subeval lines) = false ↔
        check_failed (Check_eval false subeval lines) = true) ∧
      (check_failed (Check_eval false subeval lines) = false →
        Check_eval true subeval lines = some "inverse test should fail") := by
  intro α subeval lines
  unfold Check_eval Check_eval_core check_failed
  cases h : subeval lines with
  | none => simp [pyTruthyStr]
  | some s =>
    by_cases hs : s = ""
    · subst hs
      simp [pyTruthyStr]
    · simp [pyTruthyStr, hs]

/-- C6 witness: a subeval that always passes; its inverted evaluation
returns the fixed failure message. -/
theorem C6_witness :
    check_failed (Check_eval false (fun (_ : Unit) => (none : Option String)) ()) = false ∧
    Check_eval true (fun (_ : Unit) => (none : Option String)) () =
      some "inverse test should fail" :=
  ⟨by decide, (C6_inverse_duality (fun _ => none) ()).2 (by decide)⟩

theorem except_map_ok {α β : Type} (f : α → β) (e : Except String α) (b : β)
    (h : e.map f = Except.ok b) : ∃ a, e = Except.ok a ∧ b = f a := by
  cases e with
  | error err => simp [Except.map] at h
  | ok a =>
    simp [Except.map] at h
    exact ⟨a, rfl, h.symm⟩

theorem content_frame_refl (s : RegState) : content_frame s s :=
  ⟨rfl, rfl, rfl, rfl⟩

theorem content_frame_trans (s t u : RegState)
    (h1 : content_frame s t) (h2 : content_frame t u) : content_frame s u := by
  obtain ⟨a1, b1, c1, d1⟩ := h1
  obtain ⟨a2, b2, c2, d2⟩ := h2
  exact ⟨a2.trans a1, b2.trans b1, c2.trans c1, d2.trans d1⟩

theorem modify_at_length {α : Type} (f : α → α) :
    ∀ (n : Nat) (l : List α), (modify_at n f l).length = l.length := by
  intro n l
  induction l generalizing n with
  | nil => simp [modify_at]
  | cons a rest ih =>
    cases n with
    | zero => simp [modify_at]
    | succ m => simp [modify_at, ih]

theorem apply_buffer_line_frame (s : RegState) (l : TextArg) (s' : RegState)
    (h : apply_buffer_line s l = Except.ok s') : content_frame s s' := by
  unfold apply_buffer_line at h
  obtain ⟨dat, _, rfl⟩ := except_map_ok _ _ _ h
  exact ⟨rfl, rfl, rfl, rfl⟩

theorem apply_buffer_lines_frame :
    ∀ (ls : List TextArg) (s s' : RegState),
      apply_buffer_lines s ls = Except.ok s' → content_frame s s' := by
  intro ls
  induction ls with
  | nil =>
    intro s s' h
    obtain rfl := Except.ok.inj h
    exact content_frame_refl s
  | cons l rest ih =>
    intro s s' h
    unfold apply_buffer_lines at h
    cases hb : apply_buffer_line s l with
    | error e => rw [hb] at h; exact Except.noConfusion h
    | ok s1 =>
      rw [hb] at h
      exact content_frame_trans _ _ _ (apply_buffer_line_frame _ _ _ hb) (ih _ _ h)

theorem apply_grid_line_frame (winid : Int) (s : RegState) (l : GridLineArg) (s' : RegState)
    (h : apply_grid_line winid s l = Except.ok s') : content_frame s s' := by
  unfold apply_grid_line at h
  cases hg : dictGet winid s.statuslinestarts with
  | none => rw [hg] at h; exact Except.noConfusion h
  | some off =>
    rw [hg] at h
    obtain ⟨dat, _, rfl⟩ := except_map_ok _ _ _ h
    refine ⟨rfl, rfl, rfl, ?_⟩
    dsimp only []
    split_ifs <;> simp [List.length_set]

theorem apply_grid_lines_frame (winid : Int) :
    ∀ (ls : List GridLineArg) (s s' : RegState),
      apply_grid_lines winid s ls = Except.ok s' → content_frame s s' := by
  intro ls
  induction ls with
  | nil =>
    intro s s' h
    obtain rfl := Except.ok.inj h
    exact content_frame_refl s
  | cons l rest ih =>
    intro s s' h
    unfold apply_grid_lines at h
    cases hb : apply_grid_line winid s l with
    | error e => rw [hb] at h; exact Except.noConfusion h
    | ok s1 =>
      rw [hb] at h
      exact content_frame_trans _ _ _ (apply_grid_line_frame _ _ _ _ hb) (ih _ _ h)

theorem apply_one_content_frame (s : RegState) (c : ContentArg) (s' : RegState)
    (h : apply_one_content s c = Except.ok s') : content_frame s s' := by
  unfold apply_one_content at h
  cases hw : dictGet c.id s.windows with
  | none => rw [hw] at h; exact Except.noConfusion h
  | some win =>
    rw [hw] at h
    dsimp only [] at h
    by_cases hb : win.wtype = some "buffer"
    · rw [if_pos hb] at h
      cases ht : c.text with
      | none =>
        rw [ht] at h
        obtain rfl := Except.ok.inj h
        exact ⟨rfl, rfl, rfl, rfl⟩
      | some text =>
        rw [ht] at h
        dsimp only [] at h
        by_cases hte : text.isEmpty
        · rw [if_pos hte] at h
          obtain rfl := Except.ok.inj h
          exact ⟨rfl, rfl, rfl, rfl⟩
        · rw [if_neg hte] at h
          exact content_frame_trans s { s with storywin := [], storywindat := [] } s'
            ⟨rfl, rfl, rfl, rfl⟩ (apply_buffer_lines_frame _ _ _ h)
    · rw [if_neg hb] at h
      by_cases hgr : win.wtype = some "grid"
      · rw [if_pos hgr] at h
        cases hl : c.lines with
        | none => rw [hl] at h; exact Except.noConfusion h
        | some lines =>
          rw [hl] at h
          exact apply_grid_lines_frame _ _ _ _ h
      · rw [if_neg hgr] at h
        by_cases hgx : win.wtype = some "graphics"
        · rw [if_pos hgx] at h
          obtain rfl := Except.ok.inj h
          exact ⟨rfl, rfl, rfl, rfl⟩
        · rw [if_neg hgx] at h
          obtain rfl := Except.ok.inj h
          exact content_frame_refl s

theorem apply_contents_frame :
    ∀ (cs : List ContentArg) (s s' : RegState),
      apply_contents s cs = Except.ok s' → content_frame s s' := by
  intro cs
  induction cs with
  | nil =>
    intro s s' h
    obtain rfl := Except.ok.inj h
    exact content_frame_refl s
  | cons c rest ih =>
    intro s s' h
    unfold apply_contents at h
    cases hb : apply_one_content s c with
    | error e => rw [hb] at h; exact Except.noConfusion h
    | ok s1 =>
      rw [hb] at h
      exact content_frame_trans _ _ _ (apply_one_content_frame _ _ _ hb) (ih _ _ h)

theorem proc_input_line_frame (s : RegState) (a : InArg) (s' : RegState)
    (h : proc_input_line s a = Except.ok s') : content_frame s s' := by
  unfold proc_input_line at h
  by_cases h1 : a.itype = some "line"
  · rw [if_pos h1] at h
    by_cases h2 : pyTruthyInt s.lineinputwin
    · rw [if_pos h2] at h
      exact Except.noConfusion h
    · rw [if_neg h2] at h
      obtain rfl := Except.ok.inj h
      exact ⟨rfl, rfl, rfl, rfl⟩
  · rw [if_neg h1] at h
    obtain rfl := Except.ok.inj h
    exact content_frame_refl s

theorem proc_input_char_frame (s : RegState) (a : InArg) (s' : RegState)
    (h : proc_input_char s a = Except.ok s') : content_frame s s' := by
  unfold proc_input_char at h
  by_cases h1 : a.itype = some "char"
  · rw [if_pos h1] at h
    by_cases h2 : pyTruthyInt s.charinputwin
    · rw [if_pos h2] at h
      exact Except.noConfusion h
    · rw [if_neg h2] at h
      obtain rfl := Except.ok.inj h
      exact ⟨rfl, rfl, rfl, rfl⟩
  · rw [if_neg h1] at h
    obtain rfl := Except.ok.inj h
    exact content_frame_refl s

theorem proc_one_input_frame (s : RegState) (a : InArg) (s' : RegState)
    (h : proc_one_input s a = Except.ok s') : content_frame s s' := by
  unfold proc_one_input at h
  cases h1 : proc_input_line s a with
  | error e => rw [h1] at h; exact Except.noConfusion h
  | ok s1 =>
    rw [h1] at h
    dsimp only [] at h
    cases h2 : proc_input_char s1 a with
    | error e => rw [h2] at h; exact Except.noConfusion h
    | ok s2 =>
      rw [h2] at h
      dsimp only [] at h
      obtain rfl := Except.ok.inj h
      refine content_frame_trans _ _ _ (proc_input_line_frame _ _ _ h1)
        (content_frame_trans _ _ _ (proc_input_char_frame _ _ _ h2) ?_)
      refine ⟨?_, ?_, ?_, ?_⟩ <;> (split_ifs <;> rfl)

theorem proc_inputs_frame :
    ∀ (args : List InArg) (s s' : RegState),
      proc_inputs s args = Except.ok s' → content_frame s s' := by
  intro args
  induction args with
  | nil =>
    intro s s' h
    obtain rfl := Except.ok.inj h
    exact content_frame_refl s
  | cons a rest ih =>
    intro s s' h
    unfold proc_inputs at h
    cases hb : proc_one_input s a with
    | error e => rw [hb] at h; exact Except.noConfusion h
    | ok s1 =>
      rw [hb] at h
      exact content_frame_trans _ _ _ (proc_one_input_frame _ _ _ hb) (ih _ _ h)

theorem apply_inputs_frame (s : RegState) (inputs : Option (List InArg))
    (sp : Option SpecialArg) (s' : RegState)
    (h : apply_inputs s inputs sp = Except.ok s') : content_frame s s' := by
  unfold apply_inputs at h
  cases sp with
  | some spv =>
    dsimp only [] at h
    obtain rfl := Except.ok.inj h
    exact ⟨rfl, rfl, rfl, rfl⟩
  | none =>
    cases inputs with
    | none =>
      dsimp only [] at h
      obtain rfl := Except.ok.inj h
      exact content_frame_refl s
    | some args =>
      dsimp only [] at h
      exact content_frame_trans s
        { s with specialinput := none, lineinputwin := none, charinputwin := none,
                 hyperlinkinputwin := none, mouseinputwin := none }
        s' ⟨rfl, rfl, rfl, rfl⟩ (proc_inputs_frame _ _ _ h)

theorem apply_windows_none (s : RegState) : apply_windows s none = s := rfl

theorem apply_windows_generation (s : RegState) (w : Option (List WinArg)) :
    (apply_windows s w).generation = s.generation := by
  cases w with
  | none => rfl
  | some ws => rfl

theorem parse_remglk_update_ok (s : RegState) (u : Update) (s' : RegState)
    (h : parse_remglk_update s u = Except.ok s') :
    ∃ s3, apply_contents (apply_windows { s with generation := u.gen } u.windows)
        (u.content.getD []) = Except.ok s3 ∧
      apply_inputs s3 u.input u.specialinput = Except.ok s' := by
  unfold parse_remglk_update at h
  dsimp only [] at h
  cases hc : apply_contents (apply_windows { s with generation := u.gen } u.windows)
      (u.content.getD []) with
  | error e => rw [hc] at h; exact Except.noConfusion h
  | ok s3 =>
    rw [hc] at h
    exact ⟨s3, rfl, h⟩

/-- C1 counterexample. The reconstructor assigns `state.generation` directly
from the update's gen field (regtest.py 776); nothing enforces monotonicity.
An update carrying gen 3 processed from a state at generation 5 — a
sequence with no Refresh command anywhere — makes the counter decrease. -/
theorem C1_counterexample :
    parse_remglk_update { initialRegState with generation := some 5 }
        { gen := some 3, windows := none, content := none, input := none,
          specialinput := none } =
      Except.ok { initialRegState with generation := some 3 } ∧
    ¬(∀ s', parse_remglk_update { initialRegState with generation := some 5 }
          { gen := some 3, windows := none, content := none, input := none,
            specialinput := none } = Except.ok s' →
        ∀ g0 g1, ({ initialRegState with generation := some 5 } : RegState).generation = some g0 →
          s'.generation = some g1 → g0 ≤ g1) := by
  constructor
  · rfl
  · intro hclaim
    have h5 := hclaim { initialRegState with generation := some 3 } rfl 5 3 rfl rfl
    omega

/-- C1 (amended): after each call to parse_remglk_update the state's
generation equals the update's gen field verbatim; consequently the counter
never decreases across a sequence of updates provided the incoming gen
fields themselves never decrease (which RemGlk guarantees for non-refresh
traffic), but the reconstructor itself does not enforce it. -/
theorem C1_generation_follows_update :
    ∀ (s : RegState) (u : Update) (s' : RegState),
      parse_remglk_update s u = Except.ok s' →
      s'.generation = u.gen ∧
      (∀ g0 g1, s.generation = some g0 → u.gen = some g1 → g0 ≤ g1 →
        ∃ g, s'.generation = some g ∧ g0 ≤ g) := by
  intro s u s' h
  obtain ⟨s3, hc, hi⟩ := parse_remglk_update_ok s u s' h
  have f1 := apply_contents_frame _ _ _ hc
  have f2 := apply_inputs_frame _ _ _ _ hi
  have hg : s'.generation = u.gen := by
    rw [f2.1, f1.1, apply_windows_generation]
  refine ⟨hg, ?_⟩
  intro g0 g1 _ h1 hle
  exact ⟨g1, by rw [hg, h1], hle⟩

/-- C1 witness: a concrete update with gen 7 processed from the initial
state (generation 0). -/
theorem C1_witness :
    parse_remglk_update initialRegState
        { gen := some 7, windows := none, content := none, input := none,
          specialinput := none } =
      Except.ok { initialRegState with generation := some 7 } ∧
    (({ initialRegState with generation := some 7 } : RegState).generation =
        ({ gen := some 7, windows := none, content := none, input := none,
           specialinput := none } : Update).gen ∧
      (∀ g0 g1, initialRegState.generation = some g0 →
        ({ gen := some 7, windows := none, content := none, input := none,
           specialinput := none } : Update).gen = some g1 → g0 ≤ g1 →
        ∃ g, ({ initialRegState with generation := some 7 } : RegState).generation = some g ∧
          g0 ≤ g)) :=
  ⟨rfl, C1_generation_follows_update initialRegState
    { gen := some 7, windows := none, content := none, input := none,
      specialinput := none }
    { initialRegState with generation := some 7 } rfl⟩

theorem dictGet_dictInsert_ne {α : Type} (k k' : Int) (v : α) (hk : k ≠ k') :
    ∀ l : List (Int × α), dictGet k (dictInsert k' v l) = dictGet k l := by
  have hk' : ¬(k' = k) := fun h => hk h.symm
  intro l
  induction l with
  | nil =>
    show dictGet k [(k', v)] = dictGet k []
    unfold dictGet
    rw [if_neg hk']
    rfl
  | cons p rest ih =>
    obtain ⟨k2, v2⟩ := p
    show dictGet k (if k2 = k' then (k', v) :: rest else (k2, v2) :: dictInsert k' v rest) =
      dictGet k ((k2, v2) :: rest)
    by_cases h2 : k2 = k'
    · rw [if_pos h2]
      show (if k' = k then some v else dictGet k rest) =
        (if k2 = k then some v2 else dictGet k rest)
      rw [if_neg hk', if_neg (by rw [h2]; exact hk')]
    · rw [if_neg h2]
      show (if k2 = k then some v2 else dictGet k (dictInsert k' v rest)) =
        (if k2 = k then some v2 else dictGet k rest)
      rw [ih]

theorem dictGet_build_windows (W : Int) :
    ∀ (ws : List WinArg) (acc : List (Int × WinArg)),
      dictGet W acc = none → W ∉ ws.map WinArg.id →
      dictGet W (ws.foldl (fun acc w => dictInsert w.id w acc) acc) = none := by
  intro ws
  induction ws with
  | nil =>
    intro acc h _
    exact h
  | cons w rest ih =>
    intro acc h hmem
    rw [List.map_cons] at hmem
    have hne : W ≠ w.id := fun he => hmem (he ▸ List.mem_cons_self _ _)
    have hmem' : W ∉ rest.map WinArg.id := fun hm => hmem (List.mem_cons_of_mem _ hm)
    rw [List.foldl_cons]
    exact ih _ (by rw [dictGet_dictInsert_ne _ _ _ hne]; exact h) hmem'

/-- C2: processing an update whose `windows` list is present but omits an
existing window id W removes W from the window set; a later content delta
addressed to W (in an update that does not itself recreate W) fails with
the 'No such window' protocol error; and an update whose `windows` field is
absent leaves the window set unchanged. -/
theorem C2_window_deletion :
    (∀ (s : RegState) (u : Update) (s' : RegState) (ws : List WinArg) (W : Int),
      parse_remglk_update s u = Except.ok s' → u.windows = some ws →
      W ∉ ws.map WinArg.id → dictGet W s'.windows = none) ∧
    (∀ (s : RegState) (u : Update) (s' : RegState),
      parse_remglk_update s u = Except.ok s' → u.windows = none →
      s'.windows = s.windows) ∧
    (∀ (t : RegState) (u2 : Update) (c : ContentArg) (rest : List ContentArg),
      dictGet c.id t.windows = none → u2.windows = none →
      u2.content = some (c :: rest) →
      parse_remglk_update t u2 = Except.error "No such window") := by
  refine ⟨?_, ?_, ?_⟩
  · intro s u s' ws W h hw hmem
    obtain ⟨s3, hc, hi⟩ := parse_remglk_update_ok s u s' h
    have f1 := apply_contents_frame _ _ _ hc
    have f2 := apply_inputs_frame _ _ _ _ hi
    rw [f2.2.1, f1.2.1, hw]
    show dictGet W (ws.foldl (fun acc w => dictInsert w.id w acc) []) = none
    exact dictGet_build_windows W ws [] rfl hmem
  · intro s u s' h hw
    obtain ⟨s3, hc, hi⟩ := parse_remglk_update_ok s u s' h
    have f1 := apply_contents_frame _ _ _ hc
    have f2 := apply_inputs_frame _ _ _ _ hi
    rw [f2.2.1, f1.2.1, hw, apply_windows_none]
  · intro t u2 c rest hg hw hc
    unfold parse_remglk_update
    dsimp only []
    rw [hw, apply_windows_none, hc, Option.getD_some]
    have h1 : apply_one_content { t with generation := u2.gen } c =
        Except.error "No such window" := by
      unfold apply_one_content
      rw [show dictGet c.id ({ t with generation := u2.gen } : RegState).windows = none from hg]
    have hcontents : apply_contents { t with generation := u2.gen } (c :: rest) =
        Except.error "No such window" := by
      show (match apply_one_content { t with generation := u2.gen } c with
            | Except.error e => Except.error e
            | Except.ok s1 => apply_contents s1 rest) = Except.error "No such window"
      rw [h1]
    rw [hcontents]

/-- C2 witness: a state holding window 7; an update whose windows list has
only window 1 deletes window 7, and a content delta for the now-missing
window 7 then raises 'No such window'. -/
theorem C2_witness :
    parse_remglk_update { initialRegState with windows := [(7, ⟨7, some "buffer", none⟩)] }
        { gen := some 1, windows := some [⟨1, some "buffer", none⟩], content := none, input := none, specialinput := none } =
      Except.ok { initialRegState with generation := some 1, windows := [(1, ⟨1, some "buffer", none⟩)] } ∧
    (7 : Int) ∉ ([⟨1, some "buffer", none⟩] : List WinArg).map WinArg.id ∧
    dictGet 7 ({ initialRegState with generation := some 1, windows := [(1, ⟨1, some "buffer", none⟩)] } : RegState).windows = none ∧
    dictGet (3 : Int) ({ initialRegState with generation := some 1, windows := [(1, ⟨1, some "buffer", none⟩)] } : RegState).windows = none ∧
    parse_remglk_update { initialRegState with generation := some 1, windows := [(1, ⟨1, some "buffer", none⟩)] }
        { gen := some 2, windows := none, content := some [{ id := 3, text := none, lines := none, draw := none }], input := none, specialinput := none } =
      Except.error "No such window" :=
  ⟨by decide, by decide,
    C2_window_deletion.1 { initialRegState with windows := [(7, ⟨7, some "buffer", none⟩)] }
      { gen := some 1, windows := some [⟨1, some "buffer", none⟩], content := none, input := none, specialinput := none }
      { initialRegState with generation := some 1, windows := [(1, ⟨1, some "buffer", none⟩)] }
      [⟨1, some "buffer", none⟩] 7 (by decide) rfl (by decide),
    by decide,
    C2_window_deletion.2.2
      { initialRegState with generation := some 1, windows := [(1, ⟨1, some "buffer", none⟩)] }
      { gen := some 2, windows := none, content := some [{ id := 3, text := none, lines := none, draw := none }], input := none, specialinput := none }
      { id := 3, text := none, lines := none, draw := none } []
      (by decide) rfl rfl⟩

theorem dictInsert_fresh {α : Type} (k : Int) (v : α) :
    ∀ l : List (Int × α), dictGet k l = none → dictInsert k v l = l ++ [(k, v)] := by
  intro l
  induction l with
  | nil => intro _; rfl
  | cons p rest ih =>
    obtain ⟨k2, v2⟩ := p
    intro h
    show (if k2 = k then (k, v) :: rest else (k2, v2) :: dictInsert k v rest) = _
    have h2 : ¬(k2 = k) := by
      intro he
      rw [show dictGet k ((k2, v2) :: rest) = if k2 = k then some v2 else dictGet k rest
        from rfl, if_pos he] at h
      exact Option.noConfusion h
    rw [if_neg h2]
    have h3 : dictGet k rest = none := by
      rw [show dictGet k ((k2, v2) :: rest) = if k2 = k then some v2 else dictGet k rest
        from rfl, if_neg h2] at h
      exact h
    rw [ih h3]
    rfl

theorem dictGet_append {α : Type} (k : Int) :
    ∀ l1 l2 : List (Int × α), dictGet k l1 = none →
      dictGet k (l1 ++ l2) = dictGet k l2 := by
  intro l1 l2
  induction l1 with
  | nil => intro _; rfl
  | cons p rest ih =>
    obtain ⟨k2, v2⟩ := p
    intro h
    have h2 : ¬(k2 = k) := by
      intro he
      rw [show dictGet k ((k2, v2) :: rest) = if k2 = k then some v2 else dictGet k rest
        from rfl, if_pos he] at h
      exact Option.noConfusion h
    have h3 : dictGet k rest = none := by
      rw [show dictGet k ((k2, v2) :: rest) = if k2 = k then some v2 else dictGet k rest
        from rfl, if_neg h2] at h
      exact h
    show (if k2 = k then some v2 else dictGet k (rest ++ l2)) = dictGet k l2
    rw [if_neg h2, ih h3]

theorem build_windows_eq_map :
    ∀ (ws : List WinArg) (acc : List (Int × WinArg)),
      (∀ w ∈ ws, dictGet w.id acc = none) → (ws.map WinArg.id).Nodup →
      ws.foldl (fun acc w => dictInsert w.id w acc) acc =
        acc ++ ws.map (fun w => (w.id, w)) := by
  intro ws
  induction ws with
  | nil =>
    intro acc _ _
    simp
  | cons w rest ih =>
    intro acc hfresh hnodup
    rw [List.map_cons, List.nodup_cons] at hnodup
    rw [List.foldl_cons, dictInsert_fresh _ _ _ (hfresh w (List.mem_cons_self _ _))]
    rw [ih (acc ++ [(w.id, w)]) ?_ hnodup.2]
    · simp
    · intro w2 hw2
      rw [dictGet_append _ _ _ (hfresh w2 (List.mem_cons_of_mem _ hw2))]
      have hne : ¬(w.id = w2.id) := by
        intro he
        exact hnodup.1 (he ▸ List.mem_map_of_mem WinArg.id hw2)
      show (if w.id = w2.id then some w else dictGet w2.id []) = none
      rw [if_neg hne]
      rfl

theorem build_statuslinestarts_eq :
    ∀ (gs : List WinArg) (starts : List (Int × Int)) (th : Int),
      (∀ g ∈ gs, dictGet g.id starts = none) → (gs.map WinArg.id).Nodup →
      (build_statuslinestarts gs starts th).1 = starts ++ offsets_in_list_order gs th := by
  intro gs
  induction gs with
  | nil =>
    intro starts th _ _
    simp [build_statuslinestarts, offsets_in_list_order]
  | cons g rest ih =>
    intro starts th hfresh hnodup
    rw [List.map_cons, List.nodup_cons] at hnodup
    show (build_statuslinestarts rest (dictInsert g.id th starts)
      (th + g.gridheight.getD 0)).1 = _
    rw [dictInsert_fresh _ _ _ (hfresh g (List.mem_cons_self _ _))]
    rw [ih (starts ++ [(g.id, th)]) (th + g.gridheight.getD 0) ?_ hnodup.2]
    · show starts ++ [(g.id, th)] ++ offsets_in_list_order rest (th + g.gridheight.getD 0) =
        starts ++ (g.id, th) :: offsets_in_list_order rest (th + g.gridheight.getD 0)
      simp
    · intro g2 hg2
      rw [dictGet_append _ _ _ (hfresh g2 (List.mem_cons_of_mem _ hg2))]
      have hne : ¬(g.id = g2.id) := by
        intro he
        exact hnodup.1 (he ▸ List.mem_map_of_mem WinArg.id hg2)
      show (if g.id = g2.id then some th else dictGet g2.id []) = none
      rw [if_neg hne]
      rfl

theorem filter_ids_nodup (ws : List WinArg) (p : WinArg → Bool)
    (h : (ws.map WinArg.id).Nodup) : ((ws.filter p).map WinArg.id).Nodup := by
  have hsub : List.Sublist ((ws.filter p).map WinArg.id) (ws.map WinArg.id) :=
    (List.filter_sublist ws).map WinArg.id
  exact h.sublist hsub

/-- C5 counterexample. The source iterates the grid windows in the
insertion order of the window dict, which is the order of the update's
windows array, not ascending id order (regtest.py 785-793). An update
listing grid 2 (height 1) before grid 1 (height 1) records offset 1 for
grid 1, while the claim's ascending-id rule demands offset 0. -/
theorem C5_counterexample :
    (parse_remglk_update initialRegState
        { gen := some 1, windows := some [⟨2, some "grid", some 1⟩, ⟨1, some "grid", some 1⟩], content := none, input := none, specialinput := none }).map
      (fun s => dictGet 1 s.statuslinestarts) = Except.ok (some 1) ∧
    ascending_offset [⟨2, some "grid", some 1⟩, ⟨1, some "grid", some 1⟩] 1 = 0 ∧
    ((some 1 : Option Int) ≠ some (ascending_offset
      [⟨2, some "grid", some 1⟩, ⟨1, some "grid", some 1⟩] 1)) := by
  refine ⟨by decide, by decide, by decide⟩

/-- C5 (amended): after an update carrying a `windows` array with pairwise
distinct ids, the recorded per-grid offsets list the grid windows in the
order they appear in the array, each offset equal to the sum of the
gridheights of the grids listed before it; and a grid content entry for
(grid-id, line-index) addresses aggregate index offset(grid-id)+line-index,
as the grid line application shows. -/
theorem C5_status_offsets :
    (∀ (s : RegState) (u : Update) (ws : List WinArg) (s' : RegState),
      parse_remglk_update s u = Except.ok s' → u.windows = some ws →
      (ws.map WinArg.id).Nodup →
      s'.statuslinestarts =
        offsets_in_list_order (ws.filter (fun w => decide (w.wtype = some "grid"))) 0) ∧
    (∀ (winid : Int) (st : RegState) (l : GridLineArg) (off : Int) (dat : String),
      dictGet winid st.statuslinestarts = some off →
      extract_text l.content = Except.ok dat →
      0 ≤ off + l.line → off + l.line < (st.statuswin.length : Int) →
      (apply_grid_line winid st l).map RegState.statuswin =
        Except.ok (st.statuswin.set (off + l.line).toNat dat)) := by
  constructor
  · intro s u ws s' h hw hnodup
    obtain ⟨s3, hc, hi⟩ := parse_remglk_update_ok s u s' h
    have f1 := apply_contents_frame _ _ _ hc
    have f2 := apply_inputs_frame _ _ _ _ hi
    rw [f2.2.2.1, f1.2.2.1, hw]
    show (build_statuslinestarts
        ((((ws.foldl (fun acc w => dictInsert w.id w acc) []).map Prod.snd).filter
          (fun w => decide (w.wtype = some "grid")))) [] 0).1 = _
    rw [build_windows_eq_map ws [] (by intro w _; rfl) hnodup]
    rw [List.nil_append, List.map_map]
    have hmap : (Prod.snd ∘ fun w : WinArg => (w.id, w)) = id := rfl
    rw [hmap, List.map_id]
    rw [build_statuslinestarts_eq _ [] 0 (by intro g _; rfl)
      (filter_ids_nodup ws _ hnodup)]
    rw [List.nil_append]
  · intro winid st l off dat hoff hext h0 hlen
    unfold apply_grid_line
    rw [hoff, hext]
    show Except.ok _ = _
    dsimp only []
    rw [if_pos ⟨h0, hlen⟩]

/-- C5 witness: grids 1 (height 2) then 5 (height 3) in array order give
offsets 0 and 2. -/
theorem C5_witness :
    parse_remglk_update initialRegState c5_update = Except.ok c5_result ∧
    (c5_ws.map WinArg.id).Nodup ∧
    c5_result.statuslinestarts =
      offsets_in_list_order (c5_ws.filter (fun w => decide (w.wtype = some "grid"))) 0 :=
  ⟨by decide, by decide,
    C5_status_offsets.1 initialRegState c5_update c5_ws c5_result (by decide) rfl (by decide)⟩

theorem proc_input_pure_line (st : RegState) (a : InArg) :
    (proc_input_pure st a).lineinputwin =
      if a.itype = some "line" then a.id else st.lineinputwin := by
  unfold proc_input_pure
  dsimp only []
  split_ifs <;> rfl

theorem proc_input_pure_char (st : RegState) (a : InArg) :
    (proc_input_pure st a).charinputwin =
      if a.itype = some "char" then a.id else st.charinputwin := by
  unfold proc_input_pure
  dsimp only []
  split_ifs <;> rfl

theorem proc_one_input_eq (st : RegState) (a : InArg) :
    proc_one_input st a =
      if a.itype = some "line" ∧ pyTruthyInt st.lineinputwin then
        Except.error "Multiple windows accepting line input"
      else if a.itype = some "char" ∧ pyTruthyInt st.charinputwin then
        Except.error "Multiple windows accepting char input"
      else Except.ok (proc_input_pure st a) := by
  by_cases hl : a.itype = some "line"
  · have hc : ¬(a.itype = some "char") := by rw [hl]; simp
    by_cases hlt : pyTruthyInt st.lineinputwin
    · simp [proc_one_input, proc_input_line, hl, hlt]
    · simp [proc_one_input, proc_input_line, proc_input_char, proc_input_pure, hl, hlt, hc]
  · by_cases hc : a.itype = some "char"
    · by_cases hct : pyTruthyInt st.charinputwin
      · simp [proc_one_input, proc_input_line, proc_input_char, hl, hc, hct]
      · simp [proc_one_input, proc_input_line, proc_input_char, proc_input_pure, hl, hc, hct]
    · simp [proc_one_input, proc_input_line, proc_input_char, proc_input_pure, hl, hc]

theorem proc_inputs_line_error :
    ∀ (args : List InArg) (st : RegState),
      (∀ a ∈ args, a.itype = some "line" → pyTruthyInt a.id = true) →
      2 ≤ args.countP (fun a => decide (a.itype = some "line")) +
        (if pyTruthyInt st.lineinputwin then 1 else 0) →
      args.countP (fun a => decide (a.itype = some "char")) +
        (if pyTruthyInt st.charinputwin then 1 else 0) ≤ 1 →
      proc_inputs st args = Except.error "Multiple windows accepting line input" := by
  intro args
  induction args with
  | nil =>
    intro st _ h2 h3
    exfalso
    rw [List.countP_nil] at h2
    split_ifs at h2 <;> omega
  | cons a rest ih =>
    intro st hids h2 h3
    rw [List.countP_cons] at h2 h3
    unfold proc_inputs
    rw [proc_one_input_eq]
    by_cases hl : a.itype = some "line"
    · by_cases hlt : pyTruthyInt st.lineinputwin
      · rw [if_pos ⟨hl, hlt⟩]
      · have hc : ¬(a.itype = some "char") := by rw [hl]; simp
        rw [if_neg (fun hx => hlt hx.2), if_neg (fun hx => hc hx.1)]
        show proc_inputs (proc_input_pure st a) rest = _
        apply ih
        · intro b hb
          exact hids b (List.mem_cons_of_mem _ hb)
        · rw [proc_input_pure_line, if_pos hl, hids a (List.mem_cons_self _ _) hl]
          split_ifs at h2 ⊢ <;> first | omega | simp_all
        · rw [proc_input_pure_char, if_neg hc]
          split_ifs at h3 ⊢ <;> first | omega | simp_all
    · by_cases hc : a.itype = some "char"
      · have hct : ¬(pyTruthyInt st.charinputwin = true) := by
          intro hx
          rw [if_pos hx] at h3
          split_ifs at h3 <;> first | omega | simp_all
        rw [if_neg (fun hx => hl hx.1), if_neg (fun hx => hct hx.2)]
        show proc_inputs (proc_input_pure st a) rest = _
        apply ih
        · intro b hb
          exact hids b (List.mem_cons_of_mem _ hb)
        · rw [proc_input_pure_line, if_neg hl]
          split_ifs at h2 ⊢ <;> first | omega | simp_all
        · rw [proc_input_pure_char, if_pos hc]
          split_ifs at h3 ⊢ <;> first | omega | simp_all
      · rw [if_neg (fun hx => hl hx.1), if_neg (fun hx => hc hx.1)]
        show proc_inputs (proc_input_pure st a) rest = _
        apply ih
        · intro b hb
          exact hids b (List.mem_cons_of_mem _ hb)
        · rw [proc_input_pure_line, if_neg hl]
          split_ifs at h2 ⊢ <;> first | omega | simp_all
        · rw [proc_input_pure_char, if_neg hc]
          split_ifs at h3 ⊢ <;> first | omega | simp_all

theorem proc_inputs_char_error :
    ∀ (args : List InArg) (st : RegState),
      (∀ a ∈ args, a.itype = some "char" → pyTruthyInt a.id = true) →
      2 ≤ args.countP (fun a => decide (a.itype = some "char")) +
        (if pyTruthyInt st.charinputwin then 1 else 0) →
      args.countP (fun a => decide (a.itype = some "line")) +
        (if pyTruthyInt st.lineinputwin then 1 else 0) ≤ 1 →
      proc_inputs st args = Except.error "Multiple windows accepting char input" := by
  intro args
  induction args with
  | nil =>
    intro st _ h2 h3
    exfalso
    rw [List.countP_nil] at h2
    split_ifs at h2 <;> omega
  | cons a rest ih =>
    intro st hids h2 h3
    rw [List.countP_cons] at h2 h3
    unfold proc_inputs
    rw [proc_one_input_eq]
    by_cases hc : a.itype = some "char"
    · have hl : ¬(a.itype = some "line") := by rw [hc]; simp
      by_cases hct : pyTruthyInt st.charinputwin
      · rw [if_neg (fun hx => hl hx.1), if_pos ⟨hc, hct⟩]
      · rw [if_neg (fun hx => hl hx.1), if_neg (fun hx => hct hx.2)]
        show proc_inputs (proc_input_pure st a) rest = _
        apply ih
        · intro b hb
          exact hids b (List.mem_cons_of_mem _ hb)
        · rw [proc_input_pure_char, if_pos hc, hids a (List.mem_cons_self _ _) hc]
          split_ifs at h2 ⊢ <;> first | omega | simp_all
        · rw [proc_input_pure_line, if_neg hl]
          split_ifs at h3 ⊢ <;> first | omega | simp_all
    · by_cases hl : a.itype = some "line"
      · have hlt : ¬(pyTruthyInt st.lineinputwin = true) := by
          intro hx
          rw [if_pos hx] at h3
          split_ifs at h3 <;> first | omega | simp_all
        rw [if_neg (fun hx => hlt hx.2), if_neg (fun hx => hc hx.1)]
        show proc_inputs (proc_input_pure st a) rest = _
        apply ih
        · intro b hb
          exact hids b (List.mem_cons_of_mem _ hb)
        · rw [proc_input_pure_char, if_neg hc]
          split_ifs at h2 ⊢ <;> first | omega | simp_all
        · rw [proc_input_pure_line, if_pos hl]
          split_ifs at h3 ⊢ <;> first | omega | simp_all
      · rw [if_neg (fun hx => hl hx.1), if_neg (fun hx => hc hx.1)]
        show proc_inputs (proc_input_pure st a) rest = _
        apply ih
        · intro b hb
          exact hids b (List.mem_cons_of_mem _ hb)
        · rw [proc_input_pure_char, if_neg hc]
          split_ifs at h2 ⊢ <;> first | omega | simp_all
        · rw [proc_input_pure_line, if_neg hl]
          split_ifs at h3 ⊢ <;> first | omega | simp_all

/-- C8 counterexample. The multiple-claim guard tests Python truthiness of
the stored window id (regtest.py 860, 864), so when the first line
descriptor carries id 0 (falsy; the spec's data model allows non-negative
ids) a second line descriptor does not raise: the update processes
successfully, contradicting the claim that any update with two line
descriptors raises a protocol error. -/
theorem C8_counterexample :
    parse_remglk_update initialRegState c8_update =
      Except.ok { initialRegState with generation := some 1, lineinputwin := some 5 } ∧
    (c8_update.input.getD []).countP (fun a => decide (a.itype = some "line")) = 2 ∧
    parse_remglk_update initialRegState c8_update ≠
      Except.error "Multiple windows accepting line input" := by
  refine ⟨by decide, by decide, by decide⟩

/-- C8 (amended): for an update (whose content field is absent and whose
input array is present with no specialinput) containing at least two 'line'
descriptors, all of whose line descriptors carry truthy (nonzero, present)
ids, and at most one 'char' descriptor, processing raises 'Multiple windows
accepting line input'; symmetrically for 'char'. After any successfully
processed update at most one window id is stored per input modality, since
the reconstructor keeps a single optional id for each (lineinputwin,
charinputwin). -/
theorem C8_multiple_input_focus :
    (∀ (s : RegState) (u : Update) (args : List InArg),
      u.content = none → u.specialinput = none → u.input = some args →
      (∀ a ∈ args, a.itype = some "line" → pyTruthyInt a.id = true) →
      2 ≤ args.countP (fun a => decide (a.itype = some "line")) →
      args.countP (fun a => decide (a.itype = some "char")) ≤ 1 →
      parse_remglk_update s u = Except.error "Multiple windows accepting line input") ∧
    (∀ (s : RegState) (u : Update) (args : List InArg),
      u.content = none → u.specialinput = none → u.input = some args →
      (∀ a ∈ args, a.itype = some "char" → pyTruthyInt a.id = true) →
      2 ≤ args.countP (fun a => decide (a.itype = some "char")) →
      args.countP (fun a => decide (a.itype = some "line")) ≤ 1 →
      parse_remglk_update s u = Except.error "Multiple windows accepting char input") := by
  constructor
  · intro s u args hcont hsp hin hids h2 h3
    unfold parse_remglk_update
    dsimp only []
    rw [hcont, Option.getD_none]
    show apply_inputs (apply_windows { s with generation := u.gen } u.windows)
      u.input u.specialinput = _
    rw [hin, hsp]
    unfold apply_inputs
    dsimp only []
    apply proc_inputs_line_error args _ hids
    · show 2 ≤ _ + (if pyTruthyInt none then 1 else 0)
      simp [pyTruthyInt]
      omega
    · show _ + (if pyTruthyInt none then 1 else 0) ≤ 1
      simp [pyTruthyInt]
      omega
  · intro s u args hcont hsp hin hids h2 h3
    unfold parse_remglk_update
    dsimp only []
    rw [hcont, Option.getD_none]
    show apply_inputs (apply_windows { s with generation := u.gen } u.windows)
      u.input u.specialinput = _
    rw [hin, hsp]
    unfold apply_inputs
    dsimp only []
    apply proc_inputs_char_error args _ hids
    · show 2 ≤ _ + (if pyTruthyInt none then 1 else 0)
      simp [pyTruthyInt]
      omega
    · show _ + (if pyTruthyInt none then 1 else 0) ≤ 1
      simp [pyTruthyInt]
      omega

/-- C8 witness: two line descriptors with nonzero ids 4 and 5 raise the
multiple-line-input protocol error. -/
theorem C8_witness :
    (∀ a ∈ (c8w_update.input.getD []), a.itype = some "line" → pyTruthyInt a.id = true) ∧
    2 ≤ (c8w_update.input.getD []).countP (fun a => decide (a.itype = some "line")) ∧
    parse_remglk_update initialRegState c8w_update =
      Except.error "Multiple windows accepting line input" :=
  ⟨by decide, by decide,
    C8_multiple_input_focus.1 initialRegState c8w_update
      [⟨some 4, some "line", none, false, false⟩, ⟨some 5, some "line", none, false, false⟩]
      rfl rfl rfl (by decide) (by decide) (by decide)⟩

/-- C10: an update without a windows field never changes the number of
lines of the flattened status projection, whatever content deltas it
carries; and for a single grid line entry whose aggregate index (recorded
offset plus line index) is out of bounds the text projection is left
unmodified with no error, while an in-bounds index gets its line replaced
by the decoded text. -/
theorem C10_grid_content_bounds :
    (∀ (s : RegState) (u : Update) (s' : RegState),
      u.windows = none → parse_remglk_update s u = Except.ok s' →
      s'.statuswin.length = s.statuswin.length) ∧
    (∀ (winid : Int) (st : RegState) (l : GridLineArg) (off : Int) (dat : String),
      dictGet winid st.statuslinestarts = some off →
      extract_text l.content = Except.ok dat →
      ¬(0 ≤ off + l.line ∧ off + l.line < (st.statuswin.length : Int)) →
      (apply_grid_line winid st l).map RegState.statuswin = Except.ok st.statuswin) ∧
    (∀ (winid : Int) (st : RegState) (l : GridLineArg) (off : Int) (dat : String),
      dictGet winid st.statuslinestarts = some off →
      extract_text l.content = Except.ok dat →
      0 ≤ off + l.line → off + l.line < (st.statuswin.length : Int) →
      (apply_grid_line winid st l).map RegState.statuswin =
        Except.ok (st.statuswin.set (off + l.line).toNat dat)) := by
  refine ⟨?_, ?_, ?_⟩
  · intro s u s' hw h
    obtain ⟨s3, hc, hi⟩ := parse_remglk_update_ok s u s' h
    have f1 := apply_contents_frame _ _ _ hc
    have f2 := apply_inputs_frame _ _ _ _ hi
    rw [f2.2.2.2, f1.2.2.2, hw, apply_windows_none]
  · intro winid st l off dat hoff hext hno
    unfold apply_grid_line
    rw [hoff, hext]
    show Except.ok _ = _
    dsimp only []
    rw [if_neg hno]
  · intro winid st l off dat hoff hext h0 hlen
    unfold apply_grid_line
    rw [hoff, hext]
    show Except.ok _ = _
    dsimp only []
    rw [if_pos ⟨h0, hlen⟩]

/-- C10 witness: on a two-line status projection with grid 2 starting at
offset 1, a line entry at index 5 is skipped silently, a line entry at
index 0 overwrites aggregate line 1, and an update with no windows field
keeps the projection length at 2. -/
theorem C10_witness :
    parse_remglk_update c10_state c10_update =
      Except.ok { c10_state with generation := some 2 } ∧
    ({ c10_state with generation := some 2 } : RegState).statuswin.length =
      c10_state.statuswin.length ∧
    (apply_grid_line 2 c10_state { line := 5, content := none }).map RegState.statuswin =
      Except.ok c10_state.statuswin ∧
    (apply_grid_line 2 c10_state { line := 0, content := none }).map RegState.statuswin =
      Except.ok (c10_state.statuswin.set ((1 : Int) + (0 : Int)).toNat "") :=
  ⟨by decide,
   C10_grid_content_bounds.1 c10_state c10_update { c10_state with generation := some 2 }
     rfl (by decide),
   C10_grid_content_bounds.2.1 2 c10_state { line := 5, content := none } 1 ""
     (by decide) (by decide) (by decide),
   C10_grid_content_bounds.2.2 2 c10_state { line := 0, content := none } 1 ""
     (by decide) (by decide) (by decide) (by decide)⟩

theorem list_commands_nil (tm : List (String × List RCommand)) (nested : List String) :
    list_commands tm [] nested = Except.ok [] := by
  simp [list_commands]

theorem list_commands_cycle (tm : List (String × List RCommand)) (name : String)
    (rest : List RCommand) (nested : List String) (h : name ∈ nested) :
    list_commands tm (RCommand.incl name :: rest) nested =
      Except.error ("Included test includes itself: " ++ name) := by
  simp [list_commands, h]

theorem list_commands_not_found (tm : List (String × List RCommand)) (name : String)
    (rest : List RCommand) (nested : List String) (h : ¬ name ∈ nested)
    (ht : testmap_get name tm = none) :
    list_commands tm (RCommand.incl name :: rest) nested =
      Except.error ("Included test not found: " ++ name) := by
  simp [list_commands, h]
  split
  · rfl
  · rename_i cmds2 heq
    rw [ht] at heq
    exact Option.noConfusion heq

theorem list_commands_sub_error (tm : List (String × List RCommand)) (name : String)
    (rest : List RCommand) (nested : List String) (cmds : List RCommand) (e : String)
    (h : ¬ name ∈ nested) (ht : testmap_get name tm = some cmds)
    (h1 : list_commands tm cmds (nested ++ [name]) = Except.error e) :
    list_commands tm (RCommand.incl name :: rest) nested = Except.error e := by
  simp [list_commands, h, h1]
  split
  · rename_i heq
    rw [ht] at heq
    exact Option.noConfusion heq
  · rename_i cmds2 heq
    rw [ht] at heq
    obtain rfl := Option.some.inj heq
    rw [h1]

theorem list_commands_rest_error (tm : List (String × List RCommand)) (name : String)
    (rest : List RCommand) (nested : List String) (cmds sub : List RCommand) (e : String)
    (h : ¬ name ∈ nested) (ht : testmap_get name tm = some cmds)
    (h1 : list_commands tm cmds (nested ++ [name]) = Except.ok sub)
    (h2 : list_commands tm rest nested = Except.error e) :
    list_commands tm (RCommand.incl name :: rest) nested = Except.error e := by
  simp [list_commands, h, h1, h2]
  split
  · rename_i heq
    rw [ht] at heq
    exact Option.noConfusion heq
  · rename_i cmds2 heq
    rw [ht] at heq
    obtain rfl := Option.some.inj heq
    rw [h1]

theorem list_commands_incl_ok (tm : List (String × List RCommand)) (name : String)
    (rest : List RCommand) (nested : List String) (cmds sub tail : List RCommand)
    (h : ¬ name ∈ nested) (ht : testmap_get name tm = some cmds)
    (h1 : list_commands tm cmds (nested ++ [name]) = Except.ok sub)
    (h2 : list_commands tm rest nested = Except.ok tail) :
    list_commands tm (RCommand.incl name :: rest) nested = Except.ok (sub ++ tail) := by
  simp [list_commands, h, h1, h2]
  split
  · rename_i heq
    rw [ht] at heq
    exact Option.noConfusion heq
  · rename_i cmds2 heq
    rw [ht] at heq
    obtain rfl := Option.some.inj heq
    rw [h1]

theorem list_commands_plain_error (tm : List (String × List RCommand)) (t c : String)
    (rest : List RCommand) (nested : List String) (e : String)
    (h2 : list_commands tm rest nested = Except.error e) :
    list_commands tm (RCommand.plain t c :: rest) nested = Except.error e := by
  simp [list_commands, h2]

theorem list_commands_plain_ok (tm : List (String × List RCommand)) (t c : String)
    (rest : List RCommand) (nested : List String) (tail : List RCommand)
    (h2 : list_commands tm rest nested = Except.ok tail) :
    list_commands tm (RCommand.plain t c :: rest) nested =
      Except.ok (RCommand.plain t c :: tail) := by
  simp [list_commands, h2]

theorem list_commands_no_incl (tm : List (String × List RCommand)) :
    ∀ (ls : List RCommand) (nested : List String) (res : List RCommand),
      list_commands tm ls nested = Except.ok res → ∀ c ∈ res, isIncludeCmd c = false := by
  intro ls nested
  induction ls, nested using list_commands.induct tm with
  | case1 nested2 =>
    intro res h c hc
    rw [list_commands_nil] at h
    obtain rfl := Except.ok.inj h
    exact absurd hc (List.not_mem_nil c)
  | case2 name rest nested2 hmem =>
    intro res h c hc
    rw [list_commands_cycle tm name rest nested2 hmem] at h
    exact Except.noConfusion h
  | case3 name rest nested2 hmem htnone =>
    intro res h c hc
    rw [list_commands_not_found tm name rest nested2 hmem htnone] at h
    exact Except.noConfusion h
  | case4 name rest nested2 hmem cmds ht e h1 ih1 =>
    intro res h c hc
    rw [list_commands_sub_error tm name rest nested2 cmds e hmem ht h1] at h
    exact Except.noConfusion h
  | case5 name rest nested2 hmem cmds ht sub h1 e h2 ih1 ih2 =>
    intro res h c hc
    rw [list_commands_rest_error tm name rest nested2 cmds sub e hmem ht h1 h2] at h
    exact Except.noConfusion h
  | case6 name rest nested2 hmem cmds ht sub h1 tail h2 ih1 ih2 =>
    intro res h c hc
    rw [list_commands_incl_ok tm name rest nested2 cmds sub tail hmem ht h1 h2] at h
    obtain rfl := Except.ok.inj h
    rcases List.mem_append.mp hc with hcs | hct
    · exact ih1 sub h1 c hcs
    · exact ih2 tail h2 c hct
  | case7 t c2 rest nested2 e h2 ih =>
    intro res h c hc
    rw [list_commands_plain_error tm t c2 rest nested2 e h2] at h
    exact Except.noConfusion h
  | case8 t c2 rest nested2 tail h2 ih =>
    intro res h c hc
    rw [list_commands_plain_ok tm t c2 rest nested2 tail h2] at h
    obtain rfl := Except.ok.inj h
    rcases List.mem_cons.mp hc with hcc | hct
    · rw [hcc]
      rfl
    · exact ih tail h2 c hct

/-- C9: include expansion is a terminating total function of the command
list (well-founded on the testmap names not yet on the ancestor stack);
on success the result contains no Include commands; an Include whose name
is on its own ancestor stack raises the cycle error instead of returning;
and each Include is replaced in place by the named test's recursively
expanded command list, in order, non-include commands passing through. -/
theorem C9_include_resolution :
    (∀ (tm : List (String × List RCommand)) (ls : List RCommand) (nested : List String)
        (res : List RCommand),
      list_commands tm ls nested = Except.ok res → ∀ c ∈ res, isIncludeCmd c = false) ∧
    (∀ (tm : List (String × List RCommand)) (name : String) (rest : List RCommand)
        (nested : List String),
      name ∈ nested →
      list_commands tm (RCommand.incl name :: rest) nested =
        Except.error ("Included test includes itself: " ++ name)) ∧
    (∀ (tm : List (String × List RCommand)) (name : String) (rest : List RCommand)
        (nested : List String) (cmds sub tail : List RCommand),
      ¬ name ∈ nested → testmap_get name tm = some cmds →
      list_commands tm cmds (nested ++ [name]) = Except.ok sub →
      list_commands tm rest nested = Except.ok tail →
      list_commands tm (RCommand.incl name :: rest) nested = Except.ok (sub ++ tail)) ∧
    (∀ (tm : List (String × List RCommand)) (t c : String) (rest : List RCommand)
        (nested : List String) (tail : List RCommand),
      list_commands tm rest nested = Except.ok tail →
      list_commands tm (RCommand.plain t c :: rest) nested =
        Except.ok (RCommand.plain t c :: tail)) :=
  ⟨list_commands_no_incl,
   list_commands_cycle,
   fun tm name rest nested cmds sub tail h ht h1 h2 =>
     list_commands_incl_ok tm name rest nested cmds sub tail h ht h1 h2,
   list_commands_plain_ok⟩

/-- C9 witness: with a testmap holding test a = [line x], including a from
inside a raises the cycle error; including a at top level expands in place
to [line x] with no Include left. -/
theorem C9_witness :
    ("a" ∈ (["a"] : List String)) ∧
    list_commands [("a", [RCommand.plain "line" "x"])] [RCommand.incl "a"] ["a"] =
      Except.error ("Included test includes itself: " ++ "a") ∧
    list_commands [("a", [RCommand.plain "line" "x"])] [RCommand.incl "a"] [] =
      Except.ok ([RCommand.plain "line" "x"] ++ []) ∧
    (∀ c ∈ ([RCommand.plain "line" "x"] ++ [] : List RCommand), isIncludeCmd c = false) :=
  have hx : list_commands [("a", [RCommand.plain "line" "x"])] [RCommand.plain "line" "x"]
      ["a"] = Except.ok [RCommand.plain "line" "x"] :=
    list_commands_plain_ok _ "line" "x" [] ["a"] []
      (list_commands_nil [("a", [RCommand.plain "line" "x"])] ["a"])
  have hexp : list_commands [("a", [RCommand.plain "line" "x"])] [RCommand.incl "a"] [] =
      Except.ok ([RCommand.plain "line" "x"] ++ []) :=
    C9_include_resolution.2.2.1 [("a", [RCommand.plain "line" "x"])] "a" [] []
      [RCommand.plain "line" "x"] [RCommand.plain "line" "x"] [] (by decide) (by decide)
      hx (list_commands_nil [("a", [RCommand.plain "line" "x"])] [])
  ⟨by decide,
   C9_include_resolution.2.1 [("a", [RCommand.plain "line" "x"])] "a" [] ["a"] (by decide),
   hexp,
   C9_include_resolution.1 [("a", [RCommand.plain "line" "x"])] [RCommand.incl "a"] []
     ([RCommand.plain "line" "x"] ++ []) hexp⟩

/-- C3: evaluation of the source's cancellation step at the failing input.
Window 1 has a pending line input at generation 3 and the update's input
array carries a descriptor for window id 1 with the same generation 3, so
the claim (and the spec's mandated rule) keeps the pending input; the code
clears it, because `hasinput.get('winid')` looks up the literal string
'winid' in an integer-keyed dict and never finds the descriptor. The
second conjunct evaluates the claim's rule, written as
accept_inputcancel_claimed, at the same input; the third shows the two
results differ. -/
theorem C3_inputcancel_divergence :
    accept_inputcancel c3_windowdic (some c3_args) =
      Except.ok [(1, { c3_win with input := none })] ∧
    accept_inputcancel_claimed c3_windowdic (some c3_args) = Except.ok c3_windowdic ∧
    ([(1, { c3_win with input := none })] : List (Int × GlkWindow)) ≠ c3_windowdic := by
  refine ⟨by decide, by decide, by decide⟩

/-- C4: evaluation of accept_one_content at the failing input. A paragraph
entry carrying flowbreak makes the code raise NameError ('divel' is an
undefined name, a leftover from the GlkOte JS source) instead of setting
the flow-break flag on the affected paragraph as the claim states. The
other conjuncts confirm the rest of the claim on the code: clear/append
handling — an entry without append starts a paragraph, an append entry
with non-empty content extends the last paragraph when one exists and
starts a new one otherwise — and clear=true empties the paragraph list
before the entries are applied. -/
theorem C4_flowbreak_name_error :
    accept_one_content c4_windowdic c4_flowbreak_arg =
      Except.error "NameError: name divel is not defined" ∧
    accept_one_content c4_windowdic c4_two_entries =
      Except.ok [(1, { c4_win with buflines :=
        [⟨[BufSpan.tuple "s" (IfoConEl.strEl "Hello") none,
           BufSpan.tuple "s" (IfoConEl.strEl " world") none], false⟩] })] ∧
    accept_one_content c4_windowdic c4_append_only =
      Except.ok [(1, { c4_win with buflines :=
        [⟨[BufSpan.tuple "s" (IfoConEl.strEl "Hi") none], false⟩] })] ∧
    accept_one_content c4_loaded_windowdic c4_clear_arg =
      Except.ok [(1, { c4_win with buflines :=
        [⟨[BufSpan.tuple "s" (IfoConEl.strEl "New") none], false⟩] })] := by
  refine ⟨by decide, by decide, by decide, by decide⟩
